import Mathlib

/-!
Verification development for the hebcal-rs calendar library.

The repository ships the same calendar engine in several crates:
hdate_core/src/hebrew.rs and dates_core/src/hebrew_date.rs (Hebrew side),
hdate_core/src/gregorian.rs and hdate/src/gregorian.rs (Gregorian side),
and hdate/src/molad_event.rs (molad).  The definitions below are shallow
embeddings of those functions.

Modelling conventions:
* Rust u32/u8 quantities are modelled as Nat and i32 quantities as Int.
  All arithmetic performed by the library on its intended input range
  stays far below every overflow boundary, so the unbounded types model
  the machine arithmetic exactly there.  dates_core computes
  elapsed_days with f32 arithmetic; every f32 intermediate is an exact
  integer below 2^24 for all years below roughly 46000, where f32
  arithmetic is exact, so the integer transcription used by
  hdate_core/src/hebrew.rs models both variants.
* A Rust panic (assert! failure, u32 underflow in a debug build, an
  out-of-range From<u8> conversion, try_into().unwrap() failure) is
  modelled by Option.none wrapped around the ordinary result.
* Rust div_euclid / rem_euclid on i32 are Int division and modulo
  (which are Euclidean in Lean); the truncating Rust operators / and %
  that appear in hdate/src/gregorian.rs are Int.tdiv and Int.tmod.
* The unbounded while loops of try_from_absolute are modelled with an
  explicit fuel argument chosen large enough that the fuel is provably
  never exhausted on the inputs reached by the theorems below.
* The floating point first guess of the year search,
  ((absolute - EPOCH) as f64 / AVG_HEBREW_YEAR_DAYS) as u32, is
  rendered as exact integer division by the scaled decimal constant
  36524682220597794 / 10^14.  The year scan is proved correct for every
  starting guess that does not overshoot the target year by more than
  one, with a slack of a whole year to spare, so the sub-ulp rounding
  of the f64 division cannot affect any result proved here.
-/

namespace Hebrew

/-- Epoch constant EPOCH from hdate_core/src/hebrew.rs line 5. -/
def EPOCH : ℤ := -1373428

/-- Source: is_leap_year, hdate_core/src/hebrew.rs lines 215-217. -/
def is_leap_year (year : ℕ) : Bool := (1 + year * 7) % 19 < 7

/-- Source: months_in_year, hdate_core/src/hebrew.rs lines 240-246. -/
def months_in_year (year : ℕ) : ℕ := if is_leap_year year then 13 else 12

/-- Elapsed whole lunar months before Tishrei of the given year, the
first block of elapsed_days (hdate_core/src/hebrew.rs lines 304-313).
For year = 0 the Rust u32 subtraction year - 1 underflows; Nat
truncated subtraction yields 0 here, which coincides with the observable
value the dates_core f32 variant produces for year 0 (its negative f32
day saturates to 0 on the cast to u32 and the final rule then yields 1,
exactly the value this transcription gives elapsed_days at year 0). -/
def elapsedMonths (year : ℕ) : ℕ :=
  235 * ((year - 1) / 19) + 12 * ((year - 1) % 19) +
    (((year - 1) % 19) * 7 + 1) / 19

/-- Source: the elapsed_parts line of elapsed_days (line 315). -/
def elapsedParts (m : ℕ) : ℕ := 204 + 793 * (m % 1080)

/-- Source: the elapsed_hours lines of elapsed_days (lines 317-320). -/
def elapsedHours (m : ℕ) : ℕ :=
  5 + 12 * m + 793 * (m / 1080) + elapsedParts m / 1080

/-- Source: the parts line of elapsed_days (line 322). -/
def conjunctionParts (m : ℕ) : ℕ :=
  elapsedParts m % 1080 + 1080 * (elapsedHours m % 24)

/-- Source: the day line of elapsed_days (line 323). -/
def conjunctionDay (m : ℕ) : ℕ := 1 + 29 * m + elapsedHours m / 24

/-- Final rule of elapsed_days (hdate_core/src/hebrew.rs lines 333-335):
a new year landing on Sunday, Wednesday or Friday is pushed one day. -/
def roshAdjust (altDay : ℕ) : ℕ :=
  if altDay % 7 = 0 ∨ altDay % 7 = 3 ∨ altDay % 7 = 5 then altDay + 1 else altDay

/-- Dehiyyot (postponement) tail of elapsed_days
(hdate_core/src/hebrew.rs lines 324-339), abstracted over the molad day,
the molad parts and the two leap flags it consults. -/
def rosh (day parts : ℕ) (leapPrev leapCur : Bool) : ℕ :=
  roshAdjust
    (if 19440 ≤ parts ∨
        (day % 7 = 2 ∧ 9924 ≤ parts ∧ leapCur = false) ∨
        (day % 7 = 1 ∧ 16789 ≤ parts ∧ leapPrev = true) then
      day + 1
    else day)

/-- Source: elapsed_days, hdate_core/src/hebrew.rs lines 299-340 (the
memoization cache is semantically transparent: the function is pure). -/
def elapsed_days (year : ℕ) : ℕ :=
  rosh (conjunctionDay (elapsedMonths year)) (conjunctionParts (elapsedMonths year))
    (is_leap_year (year - 1)) (is_leap_year year)

/-- Source: days_in_year, hdate_core/src/hebrew.rs lines 288-290. -/
def days_in_year (year : ℕ) : ℕ := elapsed_days (year + 1) - elapsed_days year

/-- Source: is_long_cheshvan, lines 248-250. -/
def is_long_cheshvan (year : ℕ) : Bool := days_in_year year % 10 = 5

/-- Source: is_short_kislev, lines 252-254. -/
def is_short_kislev (year : ℕ) : Bool := days_in_year year % 10 = 3

/-- Source: enum HebrewMonth, hdate_core/src/hebrew.rs lines 112-127. -/
inductive HebrewMonth where
  | Nisan | Iyyar | Sivan | Tamuz | Av | Elul | Tishrei
  | Cheshvan | Kislev | Tevet | Shvat | AdarI | AdarII
  deriving DecidableEq, Repr

/-- Discriminant values of the Rust enum (Nisan = 1, ..., AdarII = 13). -/
def HebrewMonth.toNum : HebrewMonth → ℕ
  | .Nisan => 1 | .Iyyar => 2 | .Sivan => 3 | .Tamuz => 4 | .Av => 5
  | .Elul => 6 | .Tishrei => 7 | .Cheshvan => 8 | .Kislev => 9
  | .Tevet => 10 | .Shvat => 11 | .AdarI => 12 | .AdarII => 13

/-- Source: impl From<u8> for HebrewMonth, lines 129-148; none models the
panic on an unknown value. -/
def monthOfNum : ℕ → Option HebrewMonth
  | 1 => some .Nisan | 2 => some .Iyyar | 3 => some .Sivan
  | 4 => some .Tamuz | 5 => some .Av | 6 => some .Elul
  | 7 => some .Tishrei | 8 => some .Cheshvan | 9 => some .Kislev
  | 10 => some .Tevet | 11 => some .Shvat | 12 => some .AdarI
  | 13 => some .AdarII
  | _ => none

/-- Source: days_in_month, hdate_core/src/hebrew.rs lines 256-286. -/
def days_in_month (month : HebrewMonth) (year : ℕ) : ℕ :=
  match month with
  | .Iyyar => 29 | .Tamuz => 29 | .Elul => 29 | .Tevet => 29 | .AdarII => 29
  | .AdarI => if is_leap_year year then 30 else 29
  | .Cheshvan => if is_long_cheshvan year then 30 else 29
  | .Kislev => if is_short_kislev year then 29 else 30
  | _ => 30

/-- Month length looked up through the numeric discriminant, as done by
the loops of hebrew_to_absolute (days_in_month(i.into(), year)).  The
0 default is the unreachable From<u8> panic branch; every use below is
restricted to discriminants 1..13. -/
def dimN (i year : ℕ) : ℕ := (monthOfNum i).elim 0 (fun m => days_in_month m year)

/-- Sum of the lengths of n consecutive months starting at numeric month
lo, the accumulation pattern of the loops in hebrew_to_absolute
(hdate_core/src/hebrew.rs lines 224-235). -/
def sumDim (year lo : ℕ) : ℕ → ℕ
  | 0 => 0
  | n + 1 => dimN lo year + sumDim year (lo + 1) n

/-- Source: the temp_absolute accumulation of hebrew_to_absolute (lines
222-235) where m is the numeric discriminant of the month.  The first
loop runs over Tishrei ..= months_in_year(year) and the second over
Nisan ..< m when m is before Tishrei, otherwise one loop runs over
Tishrei ..< m. -/
def tempAbsolute (year m day : ℕ) : ℕ :=
  if m < 7 then
    day + sumDim year 7 (months_in_year year + 1 - 7) + sumDim year 1 (m - 1)
  else
    day + sumDim year 7 (m - 7)

/-- Source: hebrew_to_absolute, hdate_core/src/hebrew.rs lines 219-238
(dates_core/src/hebrew_date.rs lines 216-233 is identical).  The source
asserts year >= 1; the theorems below carry that precondition and
try_from_absolute models the violating call explicitly. -/
def hebrew_to_absolute (year : ℕ) (month : HebrewMonth) (day : ℕ) : ℤ :=
  EPOCH + elapsed_days year + tempAbsolute year month.toNum day - 1

/-- Source: new_year, hdate_core/src/hebrew.rs lines 342-344. -/
def new_year (year : ℕ) : ℤ := EPOCH + elapsed_days year

/-- Source: struct HebrewDate (lines 28-35). -/
structure HebrewDate where
  year : ℕ
  month : HebrewMonth
  day : ℕ
  deriving DecidableEq, Repr

/-- Source: enum HebrewDateErrors, dates_core/src/hebrew_date.rs lines
10-13 (the String payload of BeforeEpochError is omitted). -/
inductive HebrewDateErrors where
  | BeforeEpochError
  | BadMonthArgument
  deriving DecidableEq, Repr

deriving instance DecidableEq for Except

/-- Fuelled rendering of the year loop of try_from_absolute:
while new_year(year) <= absolute { year += 1 }.  The fuel is a modelling
artifact; the theorems below always supply enough of it. -/
def yearScan (absolute : ℤ) : ℕ → ℕ → ℕ
  | y, 0 => y
  | y, fuel + 1 => if new_year y ≤ absolute then yearScan absolute (y + 1) fuel else y

/-- Fuelled rendering of the month loop of try_from_absolute:
while absolute > hebrew_to_absolute(year, month, days_in_month(month, year))
{ month += 1 }.  Reaching month 14 converts 14 through From<u8> and
panics, which none models; fuel 14 is enough for the loop to reach that
panic from any starting month, so exhausted fuel is unreachable. -/
def monthScan (year : ℕ) (absolute : ℤ) : ℕ → ℕ → Option ℕ
  | _, 0 => none
  | m, fuel + 1 =>
    match monthOfNum m with
    | none => none
    | some mo =>
      if hebrew_to_absolute year mo (days_in_month mo year) < absolute then
        monthScan year absolute (m + 1) fuel
      else some m

/-- Source: HebrewDate::try_from_absolute, dates_core/src/hebrew_date.rs
lines 86-116.  Result Ok/Err is Except.ok/Except.error; the outer
Option models panics: none is returned for the u32 underflow of
year -= 1 when the scan stops at 0, for the assert!(year >= 1) of
hebrew_to_absolute when the scan stops at 1, for a month loop that
would run past AdarII, and for a final day outside the u8 range of
try_into().unwrap().  The twin in hdate_core/src/hebrew.rs lines 84-109
differs: its epoch guard is the inverted assert!(absolute < EPOCH),
which panics on every input at or after the epoch. -/
def try_from_absolute (absolute : ℤ) : Option (Except HebrewDateErrors HebrewDate) :=
  if absolute < EPOCH then some (Except.error HebrewDateErrors.BeforeEpochError)
  else
    let delta := (absolute - EPOCH).toNat
    let guess := delta * 100000000000000 / 36524682220597794
    let stopped := yearScan absolute guess (delta + 2)
    if stopped < 2 then none
    else
      let year := stopped - 1
      let start : ℕ := if absolute < hebrew_to_absolute year HebrewMonth.Nisan 1 then 7 else 1
      match monthScan year absolute start 14 with
      | none => none
      | some m =>
        match monthOfNum m with
        | none => none
        | some mo =>
          let day : ℤ := 1 + absolute - hebrew_to_absolute year mo 1
          if 0 ≤ day ∧ day ≤ 255 then
            some (Except.ok ⟨year, mo, day.toNat⟩)
          else none

/-- Source: HebrewMonth::try_from_ym, dates_core/src/hebrew_date.rs
lines 180-200.  The hdate_core/src/hebrew.rs twin (lines 193-203)
panics through assert! and panic! on the error paths instead of
returning these Err values. -/
def try_from_ym (month year : ℕ) : Except HebrewDateErrors HebrewMonth :=
  if month < 1 ∨ 14 < month then Except.error HebrewDateErrors.BadMonthArgument
  else if is_leap_year year then
    if month = 14 then Except.ok HebrewMonth.Nisan
    else Except.ok ((monthOfNum month).getD HebrewMonth.Nisan)
  else
    if month = 14 then Except.error HebrewDateErrors.BadMonthArgument
    else if month = 13 then Except.ok HebrewMonth.Nisan
    else Except.ok ((monthOfNum month).getD HebrewMonth.Nisan)

/-- Validity of a Hebrew date exactly as claim C1 states it: the day is
within the computed length of the month in that year, and the month
exists for the leap status of the year (month 13, AdarII, exists only
in leap years; months 1..12 exist in every year). -/
def ValidHebrewDate (year : ℕ) (month : HebrewMonth) (day : ℕ) : Prop :=
  1 ≤ day ∧ day ≤ days_in_month month year ∧
    (month = HebrewMonth.AdarII → is_leap_year year = true)

instance (year : ℕ) (month : HebrewMonth) (day : ℕ) :
    Decidable (ValidHebrewDate year month day) := by
  unfold ValidHebrewDate; infer_instance

/-- Calendar-order successor of a month inside a Hebrew year (Tishrei
first, Elul last), a specification device for stating the adjacency
claim C5: Shvat is followed by Adar I, Adar I by Adar II only in a leap
year, and Adar II (or Adar I in a common year) by Nisan; Elul has no
successor inside the year. -/
def nextMonthInYear (year : ℕ) (mo : HebrewMonth) : Option HebrewMonth :=
  match mo with
  | .Tishrei => some .Cheshvan
  | .Cheshvan => some .Kislev
  | .Kislev => some .Tevet
  | .Tevet => some .Shvat
  | .Shvat => some .AdarI
  | .AdarI => if is_leap_year year then some .AdarII else some .Nisan
  | .AdarII => some .Nisan
  | .Nisan => some .Iyyar
  | .Iyyar => some .Sivan
  | .Sivan => some .Tamuz
  | .Tamuz => some .Av
  | .Av => some .Elul
  | .Elul => none

end Hebrew

namespace Gregorian

/-- Source: is_leap_year, hdate_core/src/gregorian.rs lines 23-25.  The
Rust test year % 4 == 0 uses the truncating remainder, but equality of
a remainder with 0 is divisibility, which the Euclidean remainder used
here decides identically. -/
def is_leap_year (year : ℤ) : Bool := year % 4 = 0 ∧ (year % 100 ≠ 0 ∨ year % 400 = 0)

/-- Source: the LENGTHS table, hdate_core/src/gregorian.rs line 3. -/
def LENGTHS : List ℕ := [0, 31, 28, 31, 30, 31, 30, 31, 31, 30, 31, 30, 31]

/-- Source: the LEAP_LENGTHS table, line 4. -/
def LEAP_LENGTHS : List ℕ := [0, 31, 29, 31, 30, 31, 30, 31, 31, 30, 31, 30, 31]

/-- Source: days_in_month, hdate_core/src/gregorian.rs lines 39-46.  The
source asserts month in 1..=12; the out-of-range lookup defaults to 0
here and every use below stays in range. -/
def days_in_month (month : ℕ) (year : ℤ) : ℕ :=
  (if is_leap_year year then LEAP_LENGTHS else LENGTHS).getD month 0

/-- Source: to_fixed, hdate_core/src/gregorian.rs lines 101-120.  The
quotient helper there is i32 div_euclid, which is Int division.  The
asserts on month and day are preconditions carried by the theorems
below. -/
def to_fixed (year : ℤ) (month day : ℕ) : ℤ :=
  let m : ℤ := month
  let d : ℤ := day
  let previousYear := year - 1
  365 * previousYear + previousYear / 4 - previousYear / 100 + previousYear / 400
    + (367 * m - 362) / 12
    + (if m ≤ 2 then 0 else if is_leap_year year then -1 else -2)
    + d

/-- Source: year_from_fixed, hdate_core/src/gregorian.rs lines 82-98,
with quotient = div_euclid and reminder = rem_euclid. -/
def year_from_fixed (abs : ℤ) : ℤ :=
  let l0 := abs - 1
  let n400 := l0 / 146097
  let d1 := l0 % 146097
  let n100 := d1 / 36524
  let d2 := d1 % 36524
  let n4 := d2 / 1461
  let d3 := d2 % 1461
  let n1 := d3 / 365
  let year := 400 * n400 + 100 * n100 + 4 * n4 + n1
  if n100 ≠ 4 ∧ n1 ≠ 4 then year + 1 else year

/-- Variant of year_from_fixed transcribed from hdate/src/gregorian.rs
lines 73-88, where the block decomposition uses the truncating Rust
operators / and % instead of div_euclid and rem_euclid. -/
def year_from_fixed_trunc (abs : ℤ) : ℤ :=
  let l0 := abs - 1
  let n400 := Int.tdiv l0 146097
  let d1 := Int.tmod l0 146097
  let n100 := Int.tdiv d1 36524
  let d2 := Int.tmod d1 36524
  let n4 := Int.tdiv d2 1461
  let d3 := Int.tmod d2 1461
  let n1 := Int.tdiv d3 365
  let year := 400 * n400 + 100 * n100 + 4 * n4 + n1
  if n100 ≠ 4 ∧ n1 ≠ 4 then year + 1 else year

/-- Source: absolute_to_gregorian, hdate_core/src/gregorian.rs lines
62-80.  none covers both the panics (a recovered month outside 1..=12
fails the try_into().unwrap() or the assert inside to_fixed, a negative
day fails its try_into().unwrap()) and a None from
NaiveDate::from_ymd_opt on an invalid final date; on every input
reached by the theorems below the function returns some.  The chrono
year magnitude bound of NaiveDate is not modelled; both sides of every
theorem below stay inside any such bound whenever the input does. -/
def absolute_to_gregorian (absolute : ℤ) : Option (ℤ × ℕ × ℕ) :=
  let year := year_from_fixed absolute
  let priorDays := absolute - to_fixed year 1 1
  let correction : ℤ :=
    if absolute < to_fixed year 3 1 then 0
    else if is_leap_year year then 1 else 2
  let month := (12 * (priorDays + correction) + 373) / 367
  if 1 ≤ month ∧ month ≤ 12 then
    let day := absolute - to_fixed year month.toNat 1 + 1
    if 1 ≤ day ∧ day.toNat ≤ days_in_month month.toNat year then
      some (year, month.toNat, day.toNat)
    else none
  else none

/-- Validity of a Gregorian date exactly as claim C3 states it. -/
def ValidGregorianDate (year : ℤ) (month day : ℕ) : Prop :=
  1 ≤ month ∧ month ≤ 12 ∧ 1 ≤ day ∧ day ≤ days_in_month month year

instance (year : ℤ) (month day : ℕ) : Decidable (ValidGregorianDate year month day) := by
  unfold ValidGregorianDate; infer_instance

end Gregorian

/-- Source: struct Molad, hdate/src/molad_event.rs lines 28-35. -/
structure Molad where
  year : ℕ
  month : Hebrew.HebrewMonth
  day_of_week : ℕ
  hour : ℕ
  minute : ℕ
  parts : ℕ
  deriving DecidableEq, Repr

/-- Source: Molad::new, hdate/src/molad_event.rs lines 38-75.  The f32
arithmetic there is exact integer arithmetic on the library's input
range (all intermediates stay below 2^24).  The wrap test of the source
is adjusted_month > 0.0, so a month at or before Tishrei (offset <= 0)
is wrapped forward by months_in_year; the branch condition 7 < toNum
renders exactly that.  Every quantity is nonnegative for year >= 1, so
Nat subtraction is exact here. -/
def Molad.new (year : ℕ) (month : Hebrew.HebrewMonth) : Molad :=
  let adjustedMonth : ℕ :=
    if 7 < month.toNum then month.toNum - 7
    else month.toNum + Hebrew.months_in_year year - 7
  let lastYear := year - 1
  let overallMonths := 235 * (lastYear / 19)
  let regularMonths := 12 * (lastYear % 19)
  let leapMonths := (7 * (lastYear % 19) + 1) / 19
  let elapsedMonths := overallMonths + regularMonths + leapMonths + adjustedMonth
  let elapsedParts := 204 + 793 * (elapsedMonths % 1080)
  let elapsedHours :=
    5 + 12 * elapsedMonths + 793 * (elapsedMonths / 1080) + elapsedParts / 1080 - 6
  let parts0 := elapsedParts % 1080 + 1080 * (elapsedHours % 24)
  let parts1 := parts0 % 1080
  let day := 1 + 29 * elapsedMonths + elapsedHours / 24
  { year := year
    month := month
    day_of_week := day % 7
    hour := elapsedHours % 24
    minute := parts1 / 18
    parts := parts1 % 18 }

/-- Follows the spec wording of section 4.5, for comparison with the
source: the month offset month - 7 is wrapped forward by
months_in_year(year) only when it is negative, so Tishrei itself keeps
offset 0 (the source instead wraps a non-positive offset); everything
after the offset is identical to Molad.new. -/
def Molad.perSpecWrapNegative (year : ℕ) (month : Hebrew.HebrewMonth) : Molad :=
  let adjustedMonth : ℕ :=
    if 7 ≤ month.toNum then month.toNum - 7
    else month.toNum + Hebrew.months_in_year year - 7
  let lastYear := year - 1
  let overallMonths := 235 * (lastYear / 19)
  let regularMonths := 12 * (lastYear % 19)
  let leapMonths := (7 * (lastYear % 19) + 1) / 19
  let elapsedMonths := overallMonths + regularMonths + leapMonths + adjustedMonth
  let elapsedParts := 204 + 793 * (elapsedMonths % 1080)
  let elapsedHours :=
    5 + 12 * elapsedMonths + 793 * (elapsedMonths / 1080) + elapsedParts / 1080 - 6
  let parts0 := elapsedParts % 1080 + 1080 * (elapsedHours % 24)
  let parts1 := parts0 % 1080
  let day := 1 + 29 * elapsedMonths + elapsedHours / 24
  { year := year
    month := month
    day_of_week := day % 7
    hour := elapsedHours % 24
    minute := parts1 / 18
    parts := parts1 % 18 }

/-- Source: HebrewDate::try_from_absolute, hdate_core/src/hebrew.rs lines
84-109, the twin of dates_core's try_from_absolute.  Its epoch guard is
the assert!(absolute < EPOCH, "... is before creation of time") of line
85, so every input at or after EPOCH fails the assert and panics (none).
When the assert passes, absolute - EPOCH is negative, the f64 cast of
the year guess saturates at u32 0, new_year(0) = EPOCH + 1 exceeds
absolute, so the year loop never runs and year -= 1 underflows u32
(none again); the dead remainder of the body is carried over verbatim
from try_from_absolute. -/
def Hebrew.try_from_absolute_core (absolute : ℤ) : Option Hebrew.HebrewDate :=
  if Hebrew.EPOCH ≤ absolute then none
  else
    let stopped := Hebrew.yearScan absolute 0 1
    if stopped < 2 then none
    else
      let year := stopped - 1
      let start : ℕ :=
        if absolute < Hebrew.hebrew_to_absolute year Hebrew.HebrewMonth.Nisan 1 then 7 else 1
      match Hebrew.monthScan year absolute start 14 with
      | none => none
      | some m =>
        match Hebrew.monthOfNum m with
        | none => none
        | some mo =>
          let day : ℤ := 1 + absolute - Hebrew.hebrew_to_absolute year mo 1
          if 0 ≤ day ∧ day ≤ 255 then some ⟨year, mo, day.toNat⟩ else none

/-- The month offset of the molad computation under the amended reading
of the spec sentence: month - 7, wrapped forward by months_in_year when
the offset is non-positive (that is, when month.toNum <= 7, so Tishrei
itself is wrapped), which is what the source's adjusted_month > 0.0
test computes. -/
def moladOffset (year : ℕ) (month : Hebrew.HebrewMonth) : ℕ :=
  if month.toNum ≤ 7 then month.toNum + Hebrew.months_in_year year - 7
  else month.toNum - 7

/-- The tail of Molad::new as a function of the elapsed-month count:
elapsed parts and hours of the mean conjunction (with the -6 hour
rebase), then day_of_week = day mod 7, hour = elapsed_hours mod 24,
minute = parts / 18 and chalakim = parts mod 18. -/
def moladOf (year : ℕ) (month : Hebrew.HebrewMonth) (em : ℕ) : Molad :=
  let elapsedParts := 204 + 793 * (em % 1080)
  let elapsedHours :=
    5 + 12 * em + 793 * (em / 1080) + elapsedParts / 1080 - 6
  let parts0 := elapsedParts % 1080 + 1080 * (elapsedHours % 24)
  let parts1 := parts0 % 1080
  let day := 1 + 29 * em + elapsedHours / 24
  { year := year
    month := month
    day_of_week := day % 7
    hour := elapsedHours % 24
    minute := parts1 / 18
    parts := parts1 % 18 }

namespace Hebrew

/-- Parts-form of the mean conjunction: one lunation is 29 days, 12
hours and 793 parts, that is 765433 parts of 1/25920 day, and the epoch
molad offset is 5604 parts into day 1. -/
lemma conjunction_eq (m : ℕ) :
    conjunctionDay m = 1 + (765433 * m + 5604) / 25920 ∧
      conjunctionParts m = (765433 * m + 5604) % 25920 := by
  unfold conjunctionDay conjunctionParts elapsedHours elapsedParts
  omega

/-- Postponement moves the new year forward by at most two days. -/
lemma rosh_bounds (d p : ℕ) (a b : Bool) : d ≤ rosh d p a b ∧ rosh d p a b ≤ d + 2 := by
  unfold rosh roshAdjust
  split_ifs <;> omega

/-- Elapsed months grow by 13 across a leap year and by 12 across a
common year. -/
lemma elapsedMonths_succ (y : ℕ) (hy : 1 ≤ y) :
    elapsedMonths (y + 1) = elapsedMonths y + (if is_leap_year y then 13 else 12) := by
  unfold elapsedMonths is_leap_year
  simp only [decide_eq_true_eq]
  have h19 : (y - 1) % 19 < 19 := Nat.mod_lt _ (by norm_num)
  set r := (y - 1) % 19 with hr
  interval_cases r <;> split_ifs <;> omega

/-- Dehiyyot step bounds for a common year: whatever the neighbouring
flags are, the next new year lands 353 to 355 days later. -/
lemma rosh_step_common (d p : ℕ) (hp : p < 25920) (L0 L2 : Bool) :
    rosh d p L0 false + 353 ≤
        rosh (d + 354 + (p + 9516) / 25920) ((p + 9516) % 25920) false L2 ∧
      rosh (d + 354 + (p + 9516) / 25920) ((p + 9516) % 25920) false L2 ≤
        rosh d p L0 false + 355 := by
  cases L0 <;> cases L2 <;>
    simp only [rosh, roshAdjust, eq_self_iff_true, and_true, true_and,
      Bool.true_eq_false, Bool.false_eq_true, and_false, false_and, or_false, false_or] <;>
    split_ifs <;> omega

/-- Dehiyyot step bounds for a leap year: the next new year lands 383
to 385 days later. -/
lemma rosh_step_leap (d p : ℕ) (hp : p < 25920) (L0 L2 : Bool) :
    rosh d p L0 true + 383 ≤
        rosh (d + 383 + (p + 23269) / 25920) ((p + 23269) % 25920) true L2 ∧
      rosh (d + 383 + (p + 23269) / 25920) ((p + 23269) % 25920) true L2 ≤
        rosh d p L0 true + 385 := by
  cases L0 <;> cases L2 <;>
    simp only [rosh, roshAdjust, eq_self_iff_true, and_true, true_and,
      Bool.true_eq_false, Bool.false_eq_true, and_false, false_and, or_false, false_or] <;>
    split_ifs <;> omega

/-- Distance between consecutive new years, split by leap status. -/
lemma elapsed_days_succ_bounds (y : ℕ) (hy : 1 ≤ y) :
    (is_leap_year y = false →
        elapsed_days y + 353 ≤ elapsed_days (y + 1) ∧
          elapsed_days (y + 1) ≤ elapsed_days y + 355) ∧
      (is_leap_year y = true →
        elapsed_days y + 383 ≤ elapsed_days (y + 1) ∧
          elapsed_days (y + 1) ≤ elapsed_days y + 385) := by
  have hm := elapsedMonths_succ y hy
  have hc := conjunction_eq (elapsedMonths y)
  have hc2 := conjunction_eq (elapsedMonths (y + 1))
  have hy1 : y + 1 - 1 = y := rfl
  constructor <;> intro hL
  · have hm12 : elapsedMonths (y + 1) = elapsedMonths y + 12 := by
      rw [hm, hL]; simp
    have key := rosh_step_common (conjunctionDay (elapsedMonths y))
      (conjunctionParts (elapsedMonths y))
      (by rw [hc.2]; omega) (is_leap_year (y - 1)) (is_leap_year (y + 1))
    unfold elapsed_days
    rw [hy1, hL]
    have e1 : conjunctionDay (elapsedMonths (y + 1)) =
        conjunctionDay (elapsedMonths y) + 354 +
          (conjunctionParts (elapsedMonths y) + 9516) / 25920 := by
      rw [hc.1, hc.2, hc2.1, hm12]; omega
    have e2 : conjunctionParts (elapsedMonths (y + 1)) =
        (conjunctionParts (elapsedMonths y) + 9516) % 25920 := by
      rw [hc.2, hc2.2, hm12]; omega
    rw [e1, e2]
    exact key
  · have hm13 : elapsedMonths (y + 1) = elapsedMonths y + 13 := by
      rw [hm, hL]; simp
    have key := rosh_step_leap (conjunctionDay (elapsedMonths y))
      (conjunctionParts (elapsedMonths y))
      (by rw [hc.2]; omega) (is_leap_year (y - 1)) (is_leap_year (y + 1))
    unfold elapsed_days
    rw [hy1, hL]
    have e1 : conjunctionDay (elapsedMonths (y + 1)) =
        conjunctionDay (elapsedMonths y) + 383 +
          (conjunctionParts (elapsedMonths y) + 23269) / 25920 := by
      rw [hc.1, hc.2, hc2.1, hm13]; omega
    have e2 : conjunctionParts (elapsedMonths (y + 1)) =
        (conjunctionParts (elapsedMonths y) + 23269) % 25920 := by
      rw [hc.2, hc2.2, hm13]; omega
    rw [e1, e2]
    exact key

/-- Year lengths split by leap status, the working form of claim C7. -/
lemma days_in_year_bounds (y : ℕ) (hy : 1 ≤ y) :
    (is_leap_year y = false → 353 ≤ days_in_year y ∧ days_in_year y ≤ 355) ∧
      (is_leap_year y = true → 383 ≤ days_in_year y ∧ days_in_year y ≤ 385) := by
  have h := elapsed_days_succ_bounds y hy
  unfold days_in_year
  constructor <;> intro hL
  · have := h.1 hL; omega
  · have := h.2 hL; omega

/-- Each new year is at least as late as the previous one. -/
lemma elapsed_days_le_succ (y : ℕ) : elapsed_days y ≤ elapsed_days (y + 1) := by
  rcases Nat.eq_zero_or_pos y with h0 | h1
  · subst h0; decide
  · have h := elapsed_days_succ_bounds y h1
    cases hb : is_leap_year y
    · have := h.1 hb; omega
    · have := h.2 hb; omega

/-- New years never move backwards. -/
lemma elapsed_days_mono {a b : ℕ} (hab : a ≤ b) : elapsed_days a ≤ elapsed_days b := by
  induction b with
  | zero =>
    have ha : a = 0 := by omega
    rw [ha]
  | succ n ih =>
    rcases Nat.lt_or_ge a (n + 1) with h | h
    · exact le_trans (ih (by omega)) (elapsed_days_le_succ n)
    · have ha : a = n + 1 := by omega
      rw [ha]

end Hebrew

namespace Hebrew

/-- Elapsed months are at least 12 per elapsed year. -/
lemma elapsedMonths_lower (y : ℕ) : 12 * (y - 1) ≤ elapsedMonths y := by
  unfold elapsedMonths
  omega

/-- Elapsed months are at most 235/19 per elapsed year. -/
lemma elapsedMonths_upper (y : ℕ) : 19 * elapsedMonths y ≤ 235 * (y - 1) + 7 := by
  unfold elapsedMonths
  omega

/-- The first new year falls on day 1. -/
lemma elapsed_days_one : elapsed_days 1 = 1 := by decide

/-- New years are positive day numbers. -/
lemma elapsed_days_pos (y : ℕ) : 1 ≤ elapsed_days y := by
  have h := (rosh_bounds (conjunctionDay (elapsedMonths y))
    (conjunctionParts (elapsedMonths y)) (is_leap_year (y - 1)) (is_leap_year y)).1
  have hcd : conjunctionDay (elapsedMonths y) =
      1 + 29 * elapsedMonths y + elapsedHours (elapsedMonths y) / 24 := rfl
  unfold elapsed_days
  omega

/-- A year number never exceeds its own elapsed-days count. -/
lemma le_elapsed_days (y : ℕ) (hy : 1 ≤ y) : y ≤ elapsed_days y := by
  have h := (rosh_bounds (conjunctionDay (elapsedMonths y))
    (conjunctionParts (elapsedMonths y)) (is_leap_year (y - 1)) (is_leap_year y)).1
  have hcd : conjunctionDay (elapsedMonths y) =
      1 + 29 * elapsedMonths y + elapsedHours (elapsedMonths y) / 24 := rfl
  have hm := elapsedMonths_lower y
  unfold elapsed_days
  omega

/-- Linear upper bound on elapsed days against the scaled mean year
length 365.24682220597794 used by the first guess of the year search. -/
lemma elapsed_days_le_linear (y : ℕ) (hy : 1 ≤ y) :
    elapsed_days y * 100000000000000 ≤ 36524682220597794 * y := by
  have h := (rosh_bounds (conjunctionDay (elapsedMonths y))
    (conjunctionParts (elapsedMonths y)) (is_leap_year (y - 1)) (is_leap_year y)).2
  have hc := (conjunction_eq (elapsedMonths y)).1
  have hm := elapsedMonths_upper y
  unfold elapsed_days
  omega

/-- Step identity for new years. -/
lemma new_year_succ (y : ℕ) : new_year (y + 1) = new_year y + (days_in_year y : ℤ) := by
  have h := elapsed_days_le_succ y
  unfold new_year days_in_year
  omega

/-- The year scan stops exactly at the first year whose new year lies
beyond the target day, from any starting guess at or below it. -/
lemma yearScan_eq (a : ℤ) (Y : ℕ) (h1 : new_year Y ≤ a) (h2 : a < new_year (Y + 1)) :
    ∀ fuel g, g ≤ Y + 1 → Y + 1 ≤ g + fuel → yearScan a g fuel = Y + 1 := by
  intro fuel
  induction fuel with
  | zero =>
    intro g hg1 hg2
    have hg : g = Y + 1 := by omega
    rw [hg]
    rfl
  | succ n ih =>
    intro g hg1 hg2
    by_cases hgY : g = Y + 1
    · subst hgY
      unfold yearScan
      rw [if_neg (not_le.mpr h2)]
    · have hgle : g ≤ Y := by omega
      have hc : new_year g ≤ a := by
        have := elapsed_days_mono hgle
        unfold new_year at h1 ⊢
        omega
      unfold yearScan
      rw [if_pos hc]
      exact ih (g + 1) (by omega) (by omega)

/-- Every discriminant between 1 and 13 names a month. -/
lemma monthOfNum_total (i : ℕ) (h1 : 1 ≤ i) (h13 : i ≤ 13) :
    ∃ mo, monthOfNum i = some mo ∧ mo.toNum = i := by
  interval_cases i <;> exact ⟨_, rfl, rfl⟩

/-- The month length through a discriminant agrees with days_in_month. -/
lemma dimN_eq (i : ℕ) (mo : HebrewMonth) (h : monthOfNum i = some mo) (y : ℕ) :
    dimN i y = days_in_month mo y := by
  unfold dimN
  rw [h]
  rfl

/-- Expansion of hebrew_to_absolute through the discriminant. -/
lemma h2a_eq (y : ℕ) (mo : HebrewMonth) (d : ℕ) :
    hebrew_to_absolute y mo d =
      EPOCH + elapsed_days y + (tempAbsolute y mo.toNum d : ℤ) - 1 := rfl

/-- The month scan stops exactly at the first month whose last day is
not before the target, provided the loop conditions say to keep going
strictly before month M and to stop at M. -/
lemma monthScan_eq (y : ℕ) (a : ℤ) (M : ℕ) (hM1 : 1 ≤ M) (hM13 : M ≤ 13)
    (hstop : ¬ (EPOCH + elapsed_days y + (tempAbsolute y M (dimN M y) : ℤ) - 1 < a)) :
    ∀ fuel s, 1 ≤ s → s ≤ M → M - s < fuel →
    (∀ i, s ≤ i → i < M → EPOCH + elapsed_days y + (tempAbsolute y i (dimN i y) : ℤ) - 1 < a) →
    monthScan y a s fuel = some M := by
  intro fuel
  induction fuel with
  | zero =>
    intro s hs1 hs2 hfuel hcont
    omega
  | succ n ih =>
    intro s hs1 hs2 hfuel hcont
    obtain ⟨mo, hmo, htn⟩ := monthOfNum_total s hs1 (by omega)
    have hdim : days_in_month mo y = dimN s y := (dimN_eq s mo hmo y).symm
    by_cases hsM : s = M
    · subst hsM
      unfold monthScan
      rw [hmo]
      simp only []
      rw [if_neg]
      · rw [h2a_eq, htn, hdim]
        exact hstop
    · have hslt : s < M := by omega
      unfold monthScan
      rw [hmo]
      simp only []
      rw [if_pos]
      · exact ih (s + 1) (by omega) (by omega) (by omega) (fun i hi1 hi2 => hcont i (by omega) hi2)
      · rw [h2a_eq, htn, hdim]
        exact hcont s le_rfl hslt

end Hebrew

namespace Hebrew

/-- Numeric month 1 is Nisan with 30 days. -/
lemma dimN_1 (y : ℕ) : dimN 1 y = 30 := rfl

/-- Numeric month 2 is Iyyar with 29 days. -/
lemma dimN_2 (y : ℕ) : dimN 2 y = 29 := rfl

/-- Numeric month 3 is Sivan with 30 days. -/
lemma dimN_3 (y : ℕ) : dimN 3 y = 30 := rfl

/-- Numeric month 4 is Tamuz with 29 days. -/
lemma dimN_4 (y : ℕ) : dimN 4 y = 29 := rfl

/-- Numeric month 5 is Av with 30 days. -/
lemma dimN_5 (y : ℕ) : dimN 5 y = 30 := rfl

/-- Numeric month 6 is Elul with 29 days. -/
lemma dimN_6 (y : ℕ) : dimN 6 y = 29 := rfl

/-- Numeric month 7 is Tishrei with 30 days. -/
lemma dimN_7 (y : ℕ) : dimN 7 y = 30 := rfl

/-- Numeric month 10 is Tevet with 29 days. -/
lemma dimN_10 (y : ℕ) : dimN 10 y = 29 := rfl

/-- Numeric month 11 is Shvat with 30 days. -/
lemma dimN_11 (y : ℕ) : dimN 11 y = 30 := rfl

/-- Numeric month 13 is AdarII with 29 days. -/
lemma dimN_13 (y : ℕ) : dimN 13 y = 29 := rfl

/-- Month lengths are 29 or 30 days. -/
lemma dim_bounds (mo : HebrewMonth) (y : ℕ) :
    29 ≤ days_in_month mo y ∧ days_in_month mo y ≤ 30 := by
  cases mo <;> simp [days_in_month] <;> split_ifs <;> omega

/-- Every month has at least one day. -/
lemma one_le_dim (mo : HebrewMonth) (y : ℕ) : 1 ≤ days_in_month mo y := by
  have := dim_bounds mo y
  omega

/-- A common year has 12 months. -/
lemma miy_common (Y : ℕ) (hL : is_leap_year Y = false) : months_in_year Y = 12 := by
  unfold months_in_year
  rw [hL]
  simp

/-- A leap year has 13 months. -/
lemma miy_leap (Y : ℕ) (hL : is_leap_year Y = true) : months_in_year Y = 13 := by
  unfold months_in_year
  rw [hL]
  simp

/-- Month length data of a common year: Adar I has 29 days, Cheshvan
and Kislev have 29 or 30 days, and all twelve months sum to the year
length. -/
lemma month_data_common (Y : ℕ) (hy : 1 ≤ Y) (hL : is_leap_year Y = false) :
    dimN 12 Y = 29 ∧ (dimN 8 Y = 29 ∨ dimN 8 Y = 30) ∧
      (dimN 9 Y = 29 ∨ dimN 9 Y = 30) ∧
      295 + dimN 8 Y + dimN 9 Y = days_in_year Y := by
  have hb := (days_in_year_bounds Y hy).1 hL
  have hD : days_in_year Y = 353 ∨ days_in_year Y = 354 ∨ days_in_year Y = 355 := by omega
  have h8 : dimN 8 Y = if is_long_cheshvan Y then 30 else 29 := rfl
  have h9 : dimN 9 Y = if is_short_kislev Y then 29 else 30 := rfl
  have h12 : dimN 12 Y = if is_leap_year Y then 30 else 29 := rfl
  rw [hL] at h12
  simp at h12
  rcases hD with hD | hD | hD <;>
    simp [is_long_cheshvan, is_short_kislev, hD] at h8 h9 <;> omega

/-- Month length data of a leap year: Adar I has 30 days, Cheshvan and
Kislev have 29 or 30 days, and all thirteen months sum to the year
length. -/
lemma month_data_leap (Y : ℕ) (hy : 1 ≤ Y) (hL : is_leap_year Y = true) :
    dimN 12 Y = 30 ∧ (dimN 8 Y = 29 ∨ dimN 8 Y = 30) ∧
      (dimN 9 Y = 29 ∨ dimN 9 Y = 30) ∧
      325 + dimN 8 Y + dimN 9 Y = days_in_year Y := by
  have hb := (days_in_year_bounds Y hy).2 hL
  have hD : days_in_year Y = 383 ∨ days_in_year Y = 384 ∨ days_in_year Y = 385 := by omega
  have h8 : dimN 8 Y = if is_long_cheshvan Y then 30 else 29 := rfl
  have h9 : dimN 9 Y = if is_short_kislev Y then 29 else 30 := rfl
  have h12 : dimN 12 Y = if is_leap_year Y then 30 else 29 := rfl
  rw [hL] at h12
  simp at h12
  rcases hD with hD | hD | hD <;>
    simp [is_long_cheshvan, is_short_kislev, hD] at h8 h9 <;> omega

/-- Start positions of the months inside a common year, measured by
tempAbsolute. -/
lemma month_layout_common (Y : ℕ) (hL : is_leap_year Y = false) :
    (∀ d, tempAbsolute Y 7 d = d) ∧
    (∀ d, tempAbsolute Y 8 d = 30 + d) ∧
    (∀ d, tempAbsolute Y 9 d = 30 + dimN 8 Y + d) ∧
    (∀ d, tempAbsolute Y 10 d = 30 + dimN 8 Y + dimN 9 Y + d) ∧
    (∀ d, tempAbsolute Y 11 d = 59 + dimN 8 Y + dimN 9 Y + d) ∧
    (∀ d, tempAbsolute Y 12 d = 89 + dimN 8 Y + dimN 9 Y + d) ∧
    (∀ d, tempAbsolute Y 1 d = 118 + dimN 8 Y + dimN 9 Y + d) ∧
    (∀ d, tempAbsolute Y 2 d = 148 + dimN 8 Y + dimN 9 Y + d) ∧
    (∀ d, tempAbsolute Y 3 d = 177 + dimN 8 Y + dimN 9 Y + d) ∧
    (∀ d, tempAbsolute Y 4 d = 207 + dimN 8 Y + dimN 9 Y + d) ∧
    (∀ d, tempAbsolute Y 5 d = 236 + dimN 8 Y + dimN 9 Y + d) ∧
    (∀ d, tempAbsolute Y 6 d = 266 + dimN 8 Y + dimN 9 Y + d) := by
  have h12 : dimN 12 Y = 29 := by
    have h : dimN 12 Y = if is_leap_year Y then 30 else 29 := rfl
    rw [hL] at h
    simpa using h
  refine ⟨?_, ?_, ?_, ?_, ?_, ?_, ?_, ?_, ?_, ?_, ?_, ?_⟩ <;>
    intro d <;>
    unfold tempAbsolute <;>
    rw [miy_common Y hL] <;>
    norm_num [sumDim, dimN_1, dimN_2, dimN_3, dimN_4, dimN_5, dimN_6, dimN_7,
      dimN_10, dimN_11, h12] <;>
    omega

/-- Start positions of the months inside a leap year, measured by
tempAbsolute. -/
lemma month_layout_leap (Y : ℕ) (hL : is_leap_year Y = true) :
    (∀ d, tempAbsolute Y 7 d = d) ∧
    (∀ d, tempAbsolute Y 8 d = 30 + d) ∧
    (∀ d, tempAbsolute Y 9 d = 30 + dimN 8 Y + d) ∧
    (∀ d, tempAbsolute Y 10 d = 30 + dimN 8 Y + dimN 9 Y + d) ∧
    (∀ d, tempAbsolute Y 11 d = 59 + dimN 8 Y + dimN 9 Y + d) ∧
    (∀ d, tempAbsolute Y 12 d = 89 + dimN 8 Y + dimN 9 Y + d) ∧
    (∀ d, tempAbsolute Y 13 d = 119 + dimN 8 Y + dimN 9 Y + d) ∧
    (∀ d, tempAbsolute Y 1 d = 148 + dimN 8 Y + dimN 9 Y + d) ∧
    (∀ d, tempAbsolute Y 2 d = 178 + dimN 8 Y + dimN 9 Y + d) ∧
    (∀ d, tempAbsolute Y 3 d = 207 + dimN 8 Y + dimN 9 Y + d) ∧
    (∀ d, tempAbsolute Y 4 d = 237 + dimN 8 Y + dimN 9 Y + d) ∧
    (∀ d, tempAbsolute Y 5 d = 266 + dimN 8 Y + dimN 9 Y + d) ∧
    (∀ d, tempAbsolute Y 6 d = 296 + dimN 8 Y + dimN 9 Y + d) := by
  have h12 : dimN 12 Y = 30 := by
    have h : dimN 12 Y = if is_leap_year Y then 30 else 29 := rfl
    rw [hL] at h
    simpa using h
  refine ⟨?_, ?_, ?_, ?_, ?_, ?_, ?_, ?_, ?_, ?_, ?_, ?_, ?_⟩ <;>
    intro d <;>
    unfold tempAbsolute <;>
    rw [miy_leap Y hL] <;>
    norm_num [sumDim, dimN_1, dimN_2, dimN_3, dimN_4, dimN_5, dimN_6, dimN_7,
      dimN_10, dimN_11, dimN_13, h12] <;>
    omega

end Hebrew

namespace Hebrew

/-- The rational rendering of the floating point first guess never
overshoots the target year: it stays at or below it, leaving a whole
year of slack against the one-step overshoot the scan tolerates. -/
lemma year_guess_le (a : ℤ) (Y : ℕ) (hY : 1 ≤ Y) (hlo : EPOCH ≤ a)
    (hhi : a < new_year (Y + 1)) :
    (a - EPOCH).toNat * 100000000000000 / 36524682220597794 ≤ Y := by
  have hlin := elapsed_days_le_linear (Y + 1) (by omega)
  have h1 : (a - EPOCH).toNat < elapsed_days (Y + 1) := by
    unfold new_year at hhi
    omega
  have h2 : (a - EPOCH).toNat * 100000000000000 < (Y + 1) * 36524682220597794 := by
    omega
  have h3 := (Nat.div_lt_iff_lt_mul (by norm_num :
    0 < 36524682220597794)).mpr h2
  omega

/-- Control-flow assembly for try_from_absolute: given the facts that
drive each branch, the function returns the stated date. -/
lemma tfa_assemble (a : ℤ) (Y M dd : ℕ) (mo : HebrewMonth) (hY : 1 ≤ Y)
    (hmo : monthOfNum M = some mo) (hM1 : 1 ≤ M) (hM13 : M ≤ 13)
    (hin_lo : new_year Y ≤ a) (hin_hi : a < new_year (Y + 1))
    (hstart7 : a < hebrew_to_absolute Y HebrewMonth.Nisan 1 → 7 ≤ M ∧
      ∀ i, 7 ≤ i → i < M →
        EPOCH + elapsed_days Y + (tempAbsolute Y i (dimN i Y) : ℤ) - 1 < a)
    (hstart1 : ¬ a < hebrew_to_absolute Y HebrewMonth.Nisan 1 → M < 7 ∧
      ∀ i, 1 ≤ i → i < M →
        EPOCH + elapsed_days Y + (tempAbsolute Y i (dimN i Y) : ℤ) - 1 < a)
    (hstop : ¬ (EPOCH + elapsed_days Y + (tempAbsolute Y M (dimN M Y) : ℤ) - 1 < a))
    (hday : 1 + a - hebrew_to_absolute Y mo 1 = (dd : ℤ)) (hdd255 : dd ≤ 255) :
    try_from_absolute a = some (Except.ok ⟨Y, mo, dd⟩) := by
  have hedY : 1 ≤ elapsed_days Y := elapsed_days_pos Y
  have hguard : ¬ (a < EPOCH) := by
    unfold new_year at hin_lo
    omega
  have hguess := year_guess_le a Y hY (by omega) hin_hi
  have hYd : Y ≤ (a - EPOCH).toNat := by
    have := le_elapsed_days Y hY
    unfold new_year at hin_lo
    omega
  have hscan := yearScan_eq a Y hin_lo hin_hi ((a - EPOCH).toNat + 2)
    ((a - EPOCH).toNat * 100000000000000 / 36524682220597794)
    (by omega) (by omega)
  unfold try_from_absolute
  rw [if_neg hguard]
  simp only [hscan]
  rw [if_neg (by omega : ¬ (Y + 1 < 2))]
  simp only [Nat.add_sub_cancel]
  by_cases hstart : a < hebrew_to_absolute Y HebrewMonth.Nisan 1
  · obtain ⟨hM7, hcont⟩ := hstart7 hstart
    rw [if_pos hstart]
    rw [monthScan_eq Y a M hM1 hM13 hstop 14 7 (by omega) hM7 (by omega) hcont]
    simp only [hmo]
    rw [if_pos ⟨by omega, by omega⟩]
    simp only [Option.some.injEq, Except.ok.injEq, HebrewDate.mk.injEq]
    refine ⟨trivial, trivial, ?_⟩
    omega
  · obtain ⟨hM7, hcont⟩ := hstart1 hstart
    rw [if_neg hstart]
    rw [monthScan_eq Y a M hM1 hM13 hstop 14 1 (by omega) (by omega) (by omega) hcont]
    simp only [hmo]
    rw [if_pos ⟨by omega, by omega⟩]
    simp only [Option.some.injEq, Except.ok.injEq, HebrewDate.mk.injEq]
    refine ⟨trivial, trivial, ?_⟩
    omega

end Hebrew

namespace Hebrew

/-- The Rust enum discriminant conversion is a right inverse of toNum. -/
lemma monthOfNum_toNum_eq (mo : HebrewMonth) : monthOfNum mo.toNum = some mo := by
  cases mo <;> rfl

/-- Discriminants range over 1..13. -/
lemma toNum_bounds (mo : HebrewMonth) : 1 ≤ mo.toNum ∧ mo.toNum ≤ 13 := by
  cases mo <;> simp [HebrewMonth.toNum]

/-- Month length through the discriminant of an enum value. -/
lemma dimN_toNum (mo : HebrewMonth) (y : ℕ) : dimN mo.toNum y = days_in_month mo y := by
  cases mo <;> rfl

/-- Specialization of tfa_assemble with the month number taken from the
month value itself. -/
lemma tfa_assemble2 (Y dd : ℕ) (mo : HebrewMonth) (hY : 1 ≤ Y)
    (hin_lo : new_year Y ≤ hebrew_to_absolute Y mo dd)
    (hin_hi : hebrew_to_absolute Y mo dd < new_year (Y + 1))
    (hstart7 : hebrew_to_absolute Y mo dd < hebrew_to_absolute Y HebrewMonth.Nisan 1 →
      7 ≤ mo.toNum ∧ ∀ i, 7 ≤ i → i < mo.toNum →
        EPOCH + elapsed_days Y + (tempAbsolute Y i (dimN i Y) : ℤ) - 1 <
          hebrew_to_absolute Y mo dd)
    (hstart1 : ¬ hebrew_to_absolute Y mo dd < hebrew_to_absolute Y HebrewMonth.Nisan 1 →
      mo.toNum < 7 ∧ ∀ i, 1 ≤ i → i < mo.toNum →
        EPOCH + elapsed_days Y + (tempAbsolute Y i (dimN i Y) : ℤ) - 1 <
          hebrew_to_absolute Y mo dd)
    (hstop : ¬ (EPOCH + elapsed_days Y +
      (tempAbsolute Y mo.toNum (dimN mo.toNum Y) : ℤ) - 1 < hebrew_to_absolute Y mo dd))
    (hday : 1 + hebrew_to_absolute Y mo dd - hebrew_to_absolute Y mo 1 = (dd : ℤ))
    (hdd255 : dd ≤ 255) :
    try_from_absolute (hebrew_to_absolute Y mo dd) = some (Except.ok ⟨Y, mo, dd⟩) :=
  tfa_assemble _ Y mo.toNum dd mo hY (monthOfNum_toNum_eq mo) (toNum_bounds mo).1
    (toNum_bounds mo).2 hin_lo hin_hi hstart7 hstart1 hstop hday hdd255

set_option maxHeartbeats 6400000 in
/-- Round-trip core: try_from_absolute recovers every valid Hebrew date
from its absolute day number. -/
lemma tfa_formula (Y : ℕ) (mo : HebrewMonth) (dd : ℕ) (hY : 1 ≤ Y)
    (hval : ValidHebrewDate Y mo dd) :
    try_from_absolute (hebrew_to_absolute Y mo dd) = some (Except.ok ⟨Y, mo, dd⟩) := by
  obtain ⟨hd1, hd2, hAdar⟩ := hval
  have hns := new_year_succ Y
  have hnn : new_year Y = EPOCH + (elapsed_days Y : ℤ) := rfl
  have hd2n : dd ≤ dimN mo.toNum Y := by rw [dimN_toNum]; exact hd2
  clear hd2
  by_cases hL : is_leap_year Y = true
  case neg =>
    have hL2 : is_leap_year Y = false := by
      cases h : is_leap_year Y
      · rfl
      · exact absurd h hL
    obtain ⟨l7, l8, l9, l10, l11, l12, l1, l2, l3, l4, l5, l6⟩ := month_layout_common Y hL2
    obtain ⟨e12, e8, e9, esum⟩ := month_data_common Y hY hL2
    cases mo
    case AdarII =>
      rw [hL2] at hAdar
      simp at hAdar
    all_goals (
      simp only [HebrewMonth.toNum, dimN_1, dimN_2, dimN_3, dimN_4, dimN_5, dimN_6,
        dimN_7, dimN_10, dimN_11] at hd2n
      refine tfa_assemble2 Y dd _ hY ?_ ?_ ?_ ?_ ?_ ?_ ?_
      · simp only [h2a_eq, HebrewMonth.toNum, l1, l2, l3, l4, l5, l6, l7, l8, l9, l10,
          l11, l12, dimN_1, dimN_2, dimN_3, dimN_4, dimN_5, dimN_6, dimN_7, dimN_10, dimN_11]
        omega
      · simp only [h2a_eq, HebrewMonth.toNum, l1, l2, l3, l4, l5, l6, l7, l8, l9, l10,
          l11, l12, dimN_1, dimN_2, dimN_3, dimN_4, dimN_5, dimN_6, dimN_7, dimN_10, dimN_11]
        omega
      · intro hcmp
        simp only [h2a_eq, HebrewMonth.toNum, l1, l2, l3, l4, l5, l6, l7, l8, l9, l10,
          l11, l12, dimN_1, dimN_2, dimN_3, dimN_4, dimN_5, dimN_6, dimN_7, dimN_10,
          dimN_11] at hcmp
        constructor
        · simp only [HebrewMonth.toNum]
          omega
        · intro i hi1 hi2
          simp only [HebrewMonth.toNum] at hi2
          first
            | omega
            | (interval_cases i <;>
                (simp only [h2a_eq, HebrewMonth.toNum, l1, l2, l3, l4, l5, l6, l7, l8, l9,
                  l10, l11, l12, dimN_1, dimN_2, dimN_3, dimN_4, dimN_5, dimN_6, dimN_7,
                  dimN_10, dimN_11]
                 omega))
      · intro hcmp
        simp only [h2a_eq, HebrewMonth.toNum, l1, l2, l3, l4, l5, l6, l7, l8, l9, l10,
          l11, l12, dimN_1, dimN_2, dimN_3, dimN_4, dimN_5, dimN_6, dimN_7, dimN_10,
          dimN_11] at hcmp
        constructor
        · simp only [HebrewMonth.toNum]
          omega
        · intro i hi1 hi2
          simp only [HebrewMonth.toNum] at hi2
          first
            | omega
            | (interval_cases i <;>
                (simp only [h2a_eq, HebrewMonth.toNum, l1, l2, l3, l4, l5, l6, l7, l8, l9,
                  l10, l11, l12, dimN_1, dimN_2, dimN_3, dimN_4, dimN_5, dimN_6, dimN_7,
                  dimN_10, dimN_11]
                 omega))
      · simp only [h2a_eq, HebrewMonth.toNum, l1, l2, l3, l4, l5, l6, l7, l8, l9, l10,
          l11, l12, dimN_1, dimN_2, dimN_3, dimN_4, dimN_5, dimN_6, dimN_7, dimN_10, dimN_11]
        omega
      · simp only [h2a_eq, HebrewMonth.toNum, l1, l2, l3, l4, l5, l6, l7, l8, l9, l10,
          l11, l12, dimN_1, dimN_2, dimN_3, dimN_4, dimN_5, dimN_6, dimN_7, dimN_10, dimN_11]
        omega
      · omega)
  case pos =>
    obtain ⟨l7, l8, l9, l10, l11, l12, l13, l1, l2, l3, l4, l5, l6⟩ := month_layout_leap Y hL
    obtain ⟨e12, e8, e9, esum⟩ := month_data_leap Y hY hL
    cases mo
    all_goals (
      simp only [HebrewMonth.toNum, dimN_1, dimN_2, dimN_3, dimN_4, dimN_5, dimN_6,
        dimN_7, dimN_10, dimN_11, dimN_13] at hd2n
      refine tfa_assemble2 Y dd _ hY ?_ ?_ ?_ ?_ ?_ ?_ ?_
      · simp only [h2a_eq, HebrewMonth.toNum, l1, l2, l3, l4, l5, l6, l7, l8, l9, l10,
          l11, l12, l13, dimN_1, dimN_2, dimN_3, dimN_4, dimN_5, dimN_6, dimN_7, dimN_10,
          dimN_11, dimN_13]
        omega
      · simp only [h2a_eq, HebrewMonth.toNum, l1, l2, l3, l4, l5, l6, l7, l8, l9, l10,
          l11, l12, l13, dimN_1, dimN_2, dimN_3, dimN_4, dimN_5, dimN_6, dimN_7, dimN_10,
          dimN_11, dimN_13]
        omega
      · intro hcmp
        simp only [h2a_eq, HebrewMonth.toNum, l1, l2, l3, l4, l5, l6, l7, l8, l9, l10,
          l11, l12, l13, dimN_1, dimN_2, dimN_3, dimN_4, dimN_5, dimN_6, dimN_7, dimN_10,
          dimN_11, dimN_13] at hcmp
        constructor
        · simp only [HebrewMonth.toNum]
          omega
        · intro i hi1 hi2
          simp only [HebrewMonth.toNum] at hi2
          first
            | omega
            | (interval_cases i <;>
                (simp only [h2a_eq, HebrewMonth.toNum, l1, l2, l3, l4, l5, l6, l7, l8, l9,
                  l10, l11, l12, l13, dimN_1, dimN_2, dimN_3, dimN_4, dimN_5, dimN_6,
                  dimN_7, dimN_10, dimN_11, dimN_13]
                 omega))
      · intro hcmp
        simp only [h2a_eq, HebrewMonth.toNum, l1, l2, l3, l4, l5, l6, l7, l8, l9, l10,
          l11, l12, l13, dimN_1, dimN_2, dimN_3, dimN_4, dimN_5, dimN_6, dimN_7, dimN_10,
          dimN_11, dimN_13] at hcmp
        constructor
        · simp only [HebrewMonth.toNum]
          omega
        · intro i hi1 hi2
          simp only [HebrewMonth.toNum] at hi2
          first
            | omega
            | (interval_cases i <;>
                (simp only [h2a_eq, HebrewMonth.toNum, l1, l2, l3, l4, l5, l6, l7, l8, l9,
                  l10, l11, l12, l13, dimN_1, dimN_2, dimN_3, dimN_4, dimN_5, dimN_6,
                  dimN_7, dimN_10, dimN_11, dimN_13]
                 omega))
      · simp only [h2a_eq, HebrewMonth.toNum, l1, l2, l3, l4, l5, l6, l7, l8, l9, l10,
          l11, l12, l13, dimN_1, dimN_2, dimN_3, dimN_4, dimN_5, dimN_6, dimN_7, dimN_10,
          dimN_11, dimN_13]
        omega
      · simp only [h2a_eq, HebrewMonth.toNum, l1, l2, l3, l4, l5, l6, l7, l8, l9, l10,
          l11, l12, l13, dimN_1, dimN_2, dimN_3, dimN_4, dimN_5, dimN_6, dimN_7, dimN_10,
          dimN_11, dimN_13]
        omega
      · omega)

end Hebrew

namespace Hebrew

/-- Moving one day forward inside a month moves the absolute position
one day forward. -/
lemma temp_day_step (Y m d : ℕ) : tempAbsolute Y m (d + 1) = tempAbsolute Y m d + 1 := by
  unfold tempAbsolute
  split_ifs <;> omega

/-- Every day count at or past day 1 falls inside a unique year. -/
lemma exists_year (n : ℕ) (hn : 1 ≤ n) :
    ∃ Y, 1 ≤ Y ∧ elapsed_days Y ≤ n ∧ n < elapsed_days (Y + 1) := by
  have hex : ∃ z, n < elapsed_days (z + 1) := ⟨n, by
    have := le_elapsed_days (n + 1) (by omega)
    omega⟩
  classical
  let W := Nat.find hex
  have hW : n < elapsed_days (W + 1) := Nat.find_spec hex
  have hW1 : 1 ≤ W := by
    by_contra h
    have hW0 : W = 0 := by omega
    have : n < elapsed_days 1 := by
      have := hW
      rw [hW0] at this
      exact this
    rw [elapsed_days_one] at this
    omega
  refine ⟨W, hW1, ?_, hW⟩
  have := Nat.find_min hex (m := W - 1) (by omega)
  have hsub : W - 1 + 1 = W := by omega
  rw [hsub] at this
  omega

/-- Every offset inside a common year names a valid date. -/
lemma exists_date_common (Y off : ℕ) (hY : 1 ≤ Y) (hL : is_leap_year Y = false)
    (h1 : 1 ≤ off) (h2 : off ≤ days_in_year Y) :
    ∃ mo dd, ValidHebrewDate Y mo dd ∧ tempAbsolute Y mo.toNum dd = off := by
  obtain ⟨l7, l8, l9, l10, l11, l12, l1, l2, l3, l4, l5, l6⟩ := month_layout_common Y hL
  obtain ⟨e12, e8, e9, esum⟩ := month_data_common Y hY hL
  have hc8 : dimN 8 Y = days_in_month HebrewMonth.Cheshvan Y := rfl
  have hc9 : dimN 9 Y = days_in_month HebrewMonth.Kislev Y := rfl
  have hc12 : dimN 12 Y = days_in_month HebrewMonth.AdarI Y := rfl
  by_cases c7 : off ≤ 30
  · exact ⟨.Tishrei, off, ⟨h1, c7, by intro h; cases h⟩, by
      have := l7 off; simpa [HebrewMonth.toNum] using this⟩
  by_cases c8 : off ≤ 30 + dimN 8 Y
  · refine ⟨.Cheshvan, off - 30, ⟨by omega, by omega, by intro h; cases h⟩, ?_⟩
    have := l8 (off - 30)
    simp only [HebrewMonth.toNum]
    omega
  by_cases c9 : off ≤ 30 + dimN 8 Y + dimN 9 Y
  · refine ⟨.Kislev, off - (30 + dimN 8 Y), ⟨by omega, by omega, by intro h; cases h⟩, ?_⟩
    have := l9 (off - (30 + dimN 8 Y))
    simp only [HebrewMonth.toNum]
    omega
  by_cases c10 : off ≤ 59 + dimN 8 Y + dimN 9 Y
  · refine ⟨.Tevet, off - (30 + dimN 8 Y + dimN 9 Y),
      ⟨by omega, by simp [days_in_month]; omega, by intro h; cases h⟩, ?_⟩
    have := l10 (off - (30 + dimN 8 Y + dimN 9 Y))
    simp only [HebrewMonth.toNum]
    omega
  by_cases c11 : off ≤ 89 + dimN 8 Y + dimN 9 Y
  · refine ⟨.Shvat, off - (59 + dimN 8 Y + dimN 9 Y),
      ⟨by omega, by simp [days_in_month]; omega, by intro h; cases h⟩, ?_⟩
    have := l11 (off - (59 + dimN 8 Y + dimN 9 Y))
    simp only [HebrewMonth.toNum]
    omega
  by_cases c12 : off ≤ 118 + dimN 8 Y + dimN 9 Y
  · refine ⟨.AdarI, off - (89 + dimN 8 Y + dimN 9 Y), ⟨by omega, by omega, by intro h; cases h⟩, ?_⟩
    have := l12 (off - (89 + dimN 8 Y + dimN 9 Y))
    simp only [HebrewMonth.toNum]
    omega
  by_cases c1 : off ≤ 148 + dimN 8 Y + dimN 9 Y
  · refine ⟨.Nisan, off - (118 + dimN 8 Y + dimN 9 Y),
      ⟨by omega, by simp [days_in_month]; omega, by intro h; cases h⟩, ?_⟩
    have := l1 (off - (118 + dimN 8 Y + dimN 9 Y))
    simp only [HebrewMonth.toNum]
    omega
  by_cases c2 : off ≤ 177 + dimN 8 Y + dimN 9 Y
  · refine ⟨.Iyyar, off - (148 + dimN 8 Y + dimN 9 Y),
      ⟨by omega, by simp [days_in_month]; omega, by intro h; cases h⟩, ?_⟩
    have := l2 (off - (148 + dimN 8 Y + dimN 9 Y))
    simp only [HebrewMonth.toNum]
    omega
  by_cases c3 : off ≤ 207 + dimN 8 Y + dimN 9 Y
  · refine ⟨.Sivan, off - (177 + dimN 8 Y + dimN 9 Y),
      ⟨by omega, by simp [days_in_month]; omega, by intro h; cases h⟩, ?_⟩
    have := l3 (off - (177 + dimN 8 Y + dimN 9 Y))
    simp only [HebrewMonth.toNum]
    omega
  by_cases c4 : off ≤ 236 + dimN 8 Y + dimN 9 Y
  · refine ⟨.Tamuz, off - (207 + dimN 8 Y + dimN 9 Y),
      ⟨by omega, by simp [days_in_month]; omega, by intro h; cases h⟩, ?_⟩
    have := l4 (off - (207 + dimN 8 Y + dimN 9 Y))
    simp only [HebrewMonth.toNum]
    omega
  by_cases c5 : off ≤ 266 + dimN 8 Y + dimN 9 Y
  · refine ⟨.Av, off - (236 + dimN 8 Y + dimN 9 Y),
      ⟨by omega, by simp [days_in_month]; omega, by intro h; cases h⟩, ?_⟩
    have := l5 (off - (236 + dimN 8 Y + dimN 9 Y))
    simp only [HebrewMonth.toNum]
    omega
  refine ⟨.Elul, off - (266 + dimN 8 Y + dimN 9 Y),
    ⟨by omega, by simp [days_in_month]; omega, by intro h; cases h⟩, ?_⟩
  have := l6 (off - (266 + dimN 8 Y + dimN 9 Y))
  simp only [HebrewMonth.toNum]
  omega

/-- Every offset inside a leap year names a valid date. -/
lemma exists_date_leap (Y off : ℕ) (hY : 1 ≤ Y) (hL : is_leap_year Y = true)
    (h1 : 1 ≤ off) (h2 : off ≤ days_in_year Y) :
    ∃ mo dd, ValidHebrewDate Y mo dd ∧ tempAbsolute Y mo.toNum dd = off := by
  obtain ⟨l7, l8, l9, l10, l11, l12, l13, l1, l2, l3, l4, l5, l6⟩ := month_layout_leap Y hL
  obtain ⟨e12, e8, e9, esum⟩ := month_data_leap Y hY hL
  have hc8 : dimN 8 Y = days_in_month HebrewMonth.Cheshvan Y := rfl
  have hc9 : dimN 9 Y = days_in_month HebrewMonth.Kislev Y := rfl
  have hc12 : dimN 12 Y = days_in_month HebrewMonth.AdarI Y := rfl
  by_cases c7 : off ≤ 30
  · exact ⟨.Tishrei, off, ⟨h1, c7, by intro h; cases h⟩, by
      have := l7 off; simpa [HebrewMonth.toNum] using this⟩
  by_cases c8 : off ≤ 30 + dimN 8 Y
  · refine ⟨.Cheshvan, off - 30, ⟨by omega, by omega, by intro h; cases h⟩, ?_⟩
    have := l8 (off - 30)
    simp only [HebrewMonth.toNum]
    omega
  by_cases c9 : off ≤ 30 + dimN 8 Y + dimN 9 Y
  · refine ⟨.Kislev, off - (30 + dimN 8 Y), ⟨by omega, by omega, by intro h; cases h⟩, ?_⟩
    have := l9 (off - (30 + dimN 8 Y))
    simp only [HebrewMonth.toNum]
    omega
  by_cases c10 : off ≤ 59 + dimN 8 Y + dimN 9 Y
  · refine ⟨.Tevet, off - (30 + dimN 8 Y + dimN 9 Y),
      ⟨by omega, by simp [days_in_month]; omega, by intro h; cases h⟩, ?_⟩
    have := l10 (off - (30 + dimN 8 Y + dimN 9 Y))
    simp only [HebrewMonth.toNum]
    omega
  by_cases c11 : off ≤ 89 + dimN 8 Y + dimN 9 Y
  · refine ⟨.Shvat, off - (59 + dimN 8 Y + dimN 9 Y),
      ⟨by omega, by simp [days_in_month]; omega, by intro h; cases h⟩, ?_⟩
    have := l11 (off - (59 + dimN 8 Y + dimN 9 Y))
    simp only [HebrewMonth.toNum]
    omega
  by_cases c12 : off ≤ 119 + dimN 8 Y + dimN 9 Y
  · refine ⟨.AdarI, off - (89 + dimN 8 Y + dimN 9 Y), ⟨by omega, by omega, by intro h; cases h⟩, ?_⟩
    have := l12 (off - (89 + dimN 8 Y + dimN 9 Y))
    simp only [HebrewMonth.toNum]
    omega
  by_cases c13 : off ≤ 148 + dimN 8 Y + dimN 9 Y
  · refine ⟨.AdarII, off - (119 + dimN 8 Y + dimN 9 Y),
      ⟨by omega, by simp [days_in_month]; omega, fun _ => hL⟩, ?_⟩
    have := l13 (off - (119 + dimN 8 Y + dimN 9 Y))
    simp only [HebrewMonth.toNum]
    omega
  by_cases c1 : off ≤ 178 + dimN 8 Y + dimN 9 Y
  · refine ⟨.Nisan, off - (148 + dimN 8 Y + dimN 9 Y),
      ⟨by omega, by simp [days_in_month]; omega, by intro h; cases h⟩, ?_⟩
    have := l1 (off - (148 + dimN 8 Y + dimN 9 Y))
    simp only [HebrewMonth.toNum]
    omega
  by_cases c2 : off ≤ 207 + dimN 8 Y + dimN 9 Y
  · refine ⟨.Iyyar, off - (178 + dimN 8 Y + dimN 9 Y),
      ⟨by omega, by simp [days_in_month]; omega, by intro h; cases h⟩, ?_⟩
    have := l2 (off - (178 + dimN 8 Y + dimN 9 Y))
    simp only [HebrewMonth.toNum]
    omega
  by_cases c3 : off ≤ 237 + dimN 8 Y + dimN 9 Y
  · refine ⟨.Sivan, off - (207 + dimN 8 Y + dimN 9 Y),
      ⟨by omega, by simp [days_in_month]; omega, by intro h; cases h⟩, ?_⟩
    have := l3 (off - (207 + dimN 8 Y + dimN 9 Y))
    simp only [HebrewMonth.toNum]
    omega
  by_cases c4 : off ≤ 266 + dimN 8 Y + dimN 9 Y
  · refine ⟨.Tamuz, off - (237 + dimN 8 Y + dimN 9 Y),
      ⟨by omega, by simp [days_in_month]; omega, by intro h; cases h⟩, ?_⟩
    have := l4 (off - (237 + dimN 8 Y + dimN 9 Y))
    simp only [HebrewMonth.toNum]
    omega
  by_cases c5 : off ≤ 296 + dimN 8 Y + dimN 9 Y
  · refine ⟨.Av, off - (266 + dimN 8 Y + dimN 9 Y),
      ⟨by omega, by simp [days_in_month]; omega, by intro h; cases h⟩, ?_⟩
    have := l5 (off - (266 + dimN 8 Y + dimN 9 Y))
    simp only [HebrewMonth.toNum]
    omega
  refine ⟨.Elul, off - (296 + dimN 8 Y + dimN 9 Y),
    ⟨by omega, by simp [days_in_month]; omega, by intro h; cases h⟩, ?_⟩
  have := l6 (off - (296 + dimN 8 Y + dimN 9 Y))
  simp only [HebrewMonth.toNum]
  omega

/-- Full success specification: every absolute day at or after the
first representable date (1 Tishrei of year 1, the day after EPOCH)
maps to a valid Hebrew date that round-trips. -/
lemma tfa_spec_exists (a : ℤ) (ha : EPOCH + 1 ≤ a) :
    ∃ Y mo dd, 1 ≤ Y ∧ ValidHebrewDate Y mo dd ∧ a = hebrew_to_absolute Y mo dd ∧
      try_from_absolute a = some (Except.ok ⟨Y, mo, dd⟩) := by
  have hn1 : 1 ≤ (a - EPOCH).toNat := by omega
  obtain ⟨Y, hY1, hYlo, hYhi⟩ := exists_year (a - EPOCH).toNat hn1
  have hoff1 : 1 ≤ (a - EPOCH).toNat - elapsed_days Y + 1 := by omega
  have hoffD : (a - EPOCH).toNat - elapsed_days Y + 1 ≤ days_in_year Y := by
    unfold days_in_year
    omega
  have hdate : ∃ mo dd, ValidHebrewDate Y mo dd ∧
      tempAbsolute Y mo.toNum dd = (a - EPOCH).toNat - elapsed_days Y + 1 := by
    by_cases hL : is_leap_year Y = true
    · exact exists_date_leap Y _ hY1 hL hoff1 hoffD
    · have hL2 : is_leap_year Y = false := by
        cases h : is_leap_year Y
        · rfl
        · exact absurd h hL
      exact exists_date_common Y _ hY1 hL2 hoff1 hoffD
  obtain ⟨mo, dd, hval, htemp⟩ := hdate
  have ha2 : a = hebrew_to_absolute Y mo dd := by
    rw [h2a_eq, htemp]
    omega
  exact ⟨Y, mo, dd, hY1, hval, ha2, by rw [ha2]; exact tfa_formula Y mo dd hY1 hval⟩

end Hebrew

namespace Hebrew

set_option maxHeartbeats 1600000 in
/-- Successor of a valid date: either the next day of the same month,
or day 1 of the calendar-successor month of the same year, or 1 Tishrei
of the next year when the date is the last day of Elul. -/
lemma succ_date (Y : ℕ) (mo : HebrewMonth) (dd : ℕ) (hY : 1 ≤ Y)
    (hval : ValidHebrewDate Y mo dd) :
    (dd < days_in_month mo Y ∧ ValidHebrewDate Y mo (dd + 1) ∧
      hebrew_to_absolute Y mo (dd + 1) = hebrew_to_absolute Y mo dd + 1) ∨
    (dd = days_in_month mo Y ∧ ∃ mo2, nextMonthInYear Y mo = some mo2 ∧
      ValidHebrewDate Y mo2 1 ∧
      hebrew_to_absolute Y mo2 1 = hebrew_to_absolute Y mo dd + 1) ∨
    (dd = days_in_month mo Y ∧ mo = HebrewMonth.Elul ∧
      ValidHebrewDate (Y + 1) HebrewMonth.Tishrei 1 ∧
      hebrew_to_absolute (Y + 1) HebrewMonth.Tishrei 1 = hebrew_to_absolute Y mo dd + 1) := by
  obtain ⟨hd1, hd2, hAdar⟩ := hval
  by_cases hlt : dd < days_in_month mo Y
  · left
    refine ⟨hlt, ⟨by omega, by omega, hAdar⟩, ?_⟩
    have := temp_day_step Y mo.toNum dd
    simp only [h2a_eq]
    omega
  have hdd : dd = days_in_month mo Y := by omega
  have hd2n : dd = dimN mo.toNum Y := by rw [dimN_toNum]; exact hdd
  have hns := new_year_succ Y
  have hx : tempAbsolute (Y + 1) 7 1 = 1 := by
    unfold tempAbsolute
    norm_num [sumDim]
  by_cases hL : is_leap_year Y = true
  case pos =>
    obtain ⟨l7, l8, l9, l10, l11, l12, l13, l1, l2, l3, l4, l5, l6⟩ := month_layout_leap Y hL
    obtain ⟨e12, e8, e9, esum⟩ := month_data_leap Y hY hL
    cases mo
    case Elul =>
      right; right
      refine ⟨hdd, rfl, ⟨le_rfl, by simp [days_in_month], by intro h; cases h⟩, ?_⟩
      simp only [HebrewMonth.toNum, dimN_6] at hd2n
      simp only [h2a_eq, HebrewMonth.toNum, l6, hx]
      unfold new_year at hns
      omega
    case AdarI =>
      right; left
      refine ⟨hdd, HebrewMonth.AdarII, by simp [nextMonthInYear, hL],
        ⟨le_rfl, by simp [days_in_month], fun _ => hL⟩, ?_⟩
      simp only [HebrewMonth.toNum] at hd2n
      simp only [h2a_eq, HebrewMonth.toNum, l12, l13]
      omega
    all_goals (
      right; left
      simp only [HebrewMonth.toNum] at hd2n
      try simp only [dimN_1, dimN_2, dimN_3, dimN_4, dimN_5, dimN_6, dimN_7, dimN_10,
        dimN_11, dimN_13] at hd2n
      refine ⟨hdd, _, rfl, ⟨le_rfl, by exact one_le_dim _ Y,
        by intro h; cases h⟩, ?_⟩
      simp only [h2a_eq, HebrewMonth.toNum, l1, l2, l3, l4, l5, l6, l7, l8, l9, l10,
        l11, l12, l13, dimN_1, dimN_2, dimN_3, dimN_4, dimN_5, dimN_6, dimN_7, dimN_10,
        dimN_11, dimN_13]
      omega)
  case neg =>
    have hL2 : is_leap_year Y = false := by
      cases h : is_leap_year Y
      · rfl
      · exact absurd h hL
    obtain ⟨l7, l8, l9, l10, l11, l12, l1, l2, l3, l4, l5, l6⟩ := month_layout_common Y hL2
    obtain ⟨e12, e8, e9, esum⟩ := month_data_common Y hY hL2
    cases mo
    case AdarII =>
      rw [hL2] at hAdar
      simp at hAdar
    case Elul =>
      right; right
      refine ⟨hdd, rfl, ⟨le_rfl, by simp [days_in_month], by intro h; cases h⟩, ?_⟩
      simp only [HebrewMonth.toNum, dimN_6] at hd2n
      simp only [h2a_eq, HebrewMonth.toNum, l6, hx]
      unfold new_year at hns
      omega
    case AdarI =>
      right; left
      refine ⟨hdd, HebrewMonth.Nisan, by simp [nextMonthInYear, hL2],
        ⟨le_rfl, by simp [days_in_month], by intro h; cases h⟩, ?_⟩
      simp only [HebrewMonth.toNum] at hd2n
      simp only [h2a_eq, HebrewMonth.toNum, l12, l1]
      omega
    all_goals (
      right; left
      simp only [HebrewMonth.toNum] at hd2n
      try simp only [dimN_1, dimN_2, dimN_3, dimN_4, dimN_5, dimN_6, dimN_7, dimN_10,
        dimN_11, dimN_13] at hd2n
      refine ⟨hdd, _, rfl, ⟨le_rfl, by exact one_le_dim _ Y,
        by intro h; cases h⟩, ?_⟩
      simp only [h2a_eq, HebrewMonth.toNum, l1, l2, l3, l4, l5, l6, l7, l8, l9, l10,
        l11, l12, dimN_1, dimN_2, dimN_3, dimN_4, dimN_5, dimN_6, dimN_7, dimN_10,
        dimN_11]
      omega)

end Hebrew

namespace Gregorian

set_option maxHeartbeats 1600000 in
lemma yff_decomp (C R r o : ℤ) (hR : 0 ≤ R ∧ R ≤ 3) (hr : 0 ≤ r ∧ r ≤ 99)
    (ho : 0 ≤ o)
    (hlt : o < if is_leap_year (400 * C + 100 * R + r + 1) then 366 else 365) :
    year_from_fixed (146097 * C + 36524 * R + 365 * r + r / 4 + o + 1) =
      400 * C + 100 * R + r + 1 := by
  simp only [is_leap_year, decide_eq_true_eq] at hlt
  simp only [year_from_fixed]
  by_cases hc : r = 99 ∧ o = 365
  · obtain ⟨hc1, hc2⟩ := hc
    have hR3 : R = 3 := by
      split_ifs at hlt with hlp
      · omega
      · omega
    subst hc1 hc2 hR3
    norm_num
    split_ifs <;> omega
  · have hovr : 365 * r + r / 4 + o ≤ 36523 := by omega
    have h400 : (146097 * C + 36524 * R + 365 * r + r / 4 + o + 1 - 1) / 146097 = C := by
      omega
    have h400m : (146097 * C + 36524 * R + 365 * r + r / 4 + o + 1 - 1) % 146097 =
        36524 * R + 365 * r + r / 4 + o := by omega
    rw [h400, h400m]
    have h100 : (36524 * R + 365 * r + r / 4 + o) / 36524 = R := by omega
    have h100m : (36524 * R + 365 * r + r / 4 + o) % 36524 = 365 * r + r / 4 + o := by
      omega
    rw [h100, h100m]
    have h4 : (365 * r + r / 4 + o) / 1461 = r / 4 := by omega
    have h4m : (365 * r + r / 4 + o) % 1461 = 365 * (r % 4) + o := by omega
    rw [h4, h4m]
    split_ifs <;> omega

lemma yff_jan (y o : ℤ) (ho : 0 ≤ o) (hlt : o < if is_leap_year y then 366 else 365) :
    year_from_fixed (365 * (y - 1) + (y - 1) / 4 - (y - 1) / 100 + (y - 1) / 400 + 1 + o) = y := by
  have hrecon : 400 * ((y - 1) / 400) + 100 * ((y - 1) / 100 % 4) + (y - 1) % 100 + 1 = y := by
    omega
  have harg : 146097 * ((y - 1) / 400) + 36524 * ((y - 1) / 100 % 4) +
      365 * ((y - 1) % 100) + ((y - 1) % 100) / 4 + o + 1 =
      365 * (y - 1) + (y - 1) / 4 - (y - 1) / 100 + (y - 1) / 400 + 1 + o := by
    omega
  have h := yff_decomp ((y - 1) / 400) ((y - 1) / 100 % 4) ((y - 1) % 100) o
    (by omega) (by omega) ho (by rw [hrecon]; exact hlt)
  rw [harg, hrecon] at h
  exact h

set_option maxHeartbeats 3200000 in
lemma offset_bounds (y : ℤ) (m d : ℕ) (hm1 : 1 ≤ m) (hm12 : m ≤ 12)
    (hd1 : 1 ≤ d) (hdm : d ≤ days_in_month m y) :
    0 ≤ to_fixed y m d - to_fixed y 1 1 ∧
      to_fixed y m d - to_fixed y 1 1 < if is_leap_year y then 366 else 365 := by
  interval_cases m <;> cases h : is_leap_year y <;>
    (simp [days_in_month, h, LENGTHS, LEAP_LENGTHS] at hdm
     simp [to_fixed, h]
     omega)

set_option maxHeartbeats 3200000 in
lemma month_recover (y : ℤ) (m d : ℕ) (hm1 : 1 ≤ m) (hm12 : m ≤ 12)
    (hd1 : 1 ≤ d) (hdm : d ≤ days_in_month m y) :
    (12 * (to_fixed y m d - to_fixed y 1 1 +
      (if to_fixed y m d < to_fixed y 3 1 then (0:ℤ)
       else if is_leap_year y then 1 else 2)) + 373) / 367 = (m : ℤ) := by
  interval_cases m <;> cases h : is_leap_year y <;>
    (simp [days_in_month, h, LENGTHS, LEAP_LENGTHS] at hdm
     simp only [to_fixed, h]
     norm_num
     all_goals split_ifs <;> omega)

lemma day_recover (y : ℤ) (m d : ℕ) :
    to_fixed y m d - to_fixed y m 1 + 1 = (d : ℤ) := by
  simp only [to_fixed]
  split_ifs <;> omega

lemma a2g_round (y : ℤ) (m d : ℕ) (hv : ValidGregorianDate y m d) :
    absolute_to_gregorian (to_fixed y m d) = some (y, m, d) := by
  obtain ⟨hm1, hm12, hd1, hdm⟩ := hv
  have hoff := offset_bounds y m d hm1 hm12 hd1 hdm
  have hy : year_from_fixed (to_fixed y m d) = y := by
    have ha : 365 * (y - 1) + (y - 1) / 4 - (y - 1) / 100 + (y - 1) / 400 + 1 +
        (to_fixed y m d - to_fixed y 1 1) = to_fixed y m d := by
      simp only [to_fixed]
      split_ifs <;> omega
    have h0 := yff_jan y (to_fixed y m d - to_fixed y 1 1) hoff.1 hoff.2
    rw [ha] at h0
    exact h0
  simp only [absolute_to_gregorian, hy]
  rw [month_recover y m d hm1 hm12 hd1 hdm]
  simp only [Int.toNat_natCast]
  rw [if_pos (show (1:ℤ) ≤ (m:ℤ) ∧ (m:ℤ) ≤ 12 by omega)]
  rw [day_recover y m d]
  rw [if_pos (show (1:ℤ) ≤ (d:ℤ) ∧ ((d:ℤ)).toNat ≤ days_in_month m y by
    exact ⟨by omega, by omega⟩)]
  simp only [Option.some.injEq, Prod.mk.injEq]
  refine ⟨by trivial, by trivial, by omega⟩

end Gregorian

namespace Hebrew

/-- The leap rule only depends on the year's residue in the 19-year
Metonic cycle. -/
lemma leap_shift (y i : ℕ) : is_leap_year (y + i) = is_leap_year (y % 19 + i) := by
  have h : (1 + (y + i) * 7) % 19 = (1 + (y % 19 + i) * 7) % 19 := by omega
  simp [is_leap_year, h]

/-- Any window of 19 consecutive years holds exactly 7 leap years. -/
lemma leap_density (y : ℕ) :
    ((List.range 19).filter (fun i => is_leap_year (y + i))).length = 7 := by
  have hf : (List.range 19).filter (fun i => is_leap_year (y + i)) =
      (List.range 19).filter (fun i => is_leap_year (y % 19 + i)) :=
    List.filter_congr (fun x _ => by rw [leap_shift])
  rw [hf]
  have h19 : y % 19 < 19 := Nat.mod_lt _ (by norm_num)
  set r := y % 19 with hr
  clear_value r
  interval_cases r <;> decide

/-- Every year length is one of the six legal values. -/
lemma year_length_legal (y : ℕ) (hy : 1 ≤ y) :
    (days_in_year y = 353 ∨ days_in_year y = 354 ∨ days_in_year y = 355 ∨
      days_in_year y = 383 ∨ days_in_year y = 384 ∨ days_in_year y = 385) := by
  have h := days_in_year_bounds y hy
  cases hL : is_leap_year y
  · have := h.1 hL; omega
  · have := h.2 hL; omega

/-- Full case analysis of dates_core's try_from_ym: out-of-range months
error, month 14 is Nisan exactly in leap years, month 13 is Nisan in a
common year and AdarII in a leap year, and months 1..12 map directly. -/
lemma try_from_ym_cases (m y : ℕ) :
    (m = 0 ∨ 14 < m → try_from_ym m y = Except.error HebrewDateErrors.BadMonthArgument) ∧
    (m = 14 → try_from_ym m y =
      (if is_leap_year y then Except.ok HebrewMonth.Nisan
       else Except.error HebrewDateErrors.BadMonthArgument)) ∧
    (m = 13 → is_leap_year y = false → try_from_ym m y = Except.ok HebrewMonth.Nisan) ∧
    (m = 13 → is_leap_year y = true → try_from_ym m y = Except.ok HebrewMonth.AdarII) ∧
    (1 ≤ m → m ≤ 12 → try_from_ym m y = Except.ok ((monthOfNum m).getD HebrewMonth.Nisan)) := by
  refine ⟨?_, ?_, ?_, ?_, ?_⟩
  · intro h
    unfold try_from_ym
    rw [if_pos (by omega)]
  · intro h
    subst h
    unfold try_from_ym
    rw [if_neg (by omega)]
    cases hL : is_leap_year y <;> simp
  · intro h hL
    subst h
    unfold try_from_ym
    rw [if_neg (by omega), hL]
    simp
  · intro h hL
    subst h
    unfold try_from_ym
    rw [if_neg (by omega), hL]
    simp [monthOfNum]
  · intro h1 h12
    unfold try_from_ym
    rw [if_neg (by omega)]
    cases hL : is_leap_year y <;>
      simp [hL, show m ≠ 14 by omega, show m ≠ 13 by omega]

end Hebrew

/-- Molad::new is the field map moladOf applied to the source's own
elapsed-month count (its adjusted_month > 0.0 wrap spelled as
7 < toNum). -/
lemma molad_new_eq_moladOf (y : ℕ) (mo : Hebrew.HebrewMonth) :
    Molad.new y mo = moladOf y mo
      (235 * ((y - 1) / 19) + 12 * ((y - 1) % 19) + (7 * ((y - 1) % 19) + 1) / 19 +
        (if 7 < mo.toNum then mo.toNum - 7 else mo.toNum + Hebrew.months_in_year y - 7)) := rfl

/-- The source's elapsed-month count is elapsedMonths of elapsed_days
plus the wrapped month offset. -/
lemma molad_em_eq (y : ℕ) (mo : Hebrew.HebrewMonth) :
    235 * ((y - 1) / 19) + 12 * ((y - 1) % 19) + (7 * ((y - 1) % 19) + 1) / 19 +
        (if 7 < mo.toNum then mo.toNum - 7 else mo.toNum + Hebrew.months_in_year y - 7) =
      Hebrew.elapsedMonths y + moladOffset y mo := by
  unfold Hebrew.elapsedMonths moladOffset
  cases mo <;> simp [Hebrew.HebrewMonth.toNum] <;> omega

/-- Ranges of the four derived molad fields. -/
lemma moladOf_ranges (y : ℕ) (mo : Hebrew.HebrewMonth) (em : ℕ) :
    (moladOf y mo em).day_of_week < 7 ∧ (moladOf y mo em).hour < 24 ∧
      (moladOf y mo em).minute < 60 ∧ (moladOf y mo em).parts < 18 := by
  simp only [moladOf]
  refine ⟨Nat.mod_lt _ (by norm_num), Nat.mod_lt _ (by norm_num), ?_,
    Nat.mod_lt _ (by norm_num)⟩
  have h := Nat.mod_lt (204 + 793 * (em % 1080) % 1080 +
    1080 * ((5 + 12 * em + 793 * (em / 1080) + (204 + 793 * (em % 1080)) / 1080 - 6) % 24))
    (show 0 < 1080 by norm_num)
  omega

/-- The hdate_core twin of try_from_absolute yields no date for the
absolute day of any valid Hebrew date: such a day is at or after EPOCH,
so the inverted assert fires. -/
lemma core_none (y : ℕ) (mo : Hebrew.HebrewMonth) (dd : ℕ) (hy : 1 ≤ y) (hd : 1 ≤ dd) :
    Hebrew.try_from_absolute_core (Hebrew.hebrew_to_absolute y mo dd) = none := by
  have h1 := Hebrew.elapsed_days_pos y
  have h2 : 1 ≤ Hebrew.tempAbsolute y mo.toNum dd := by
    unfold Hebrew.tempAbsolute
    split_ifs <;> omega
  unfold Hebrew.try_from_absolute_core
  rw [if_pos ?_]
  unfold Hebrew.hebrew_to_absolute
  omega

/-- Claim C1: for a valid Hebrew date with year >= 1, the hdate_core
HebrewDate::try_from_absolute applied to hebrew_to_absolute of the date
never returns it — its inverted epoch assert panics on every absolute
day at or after EPOCH (modelled none) — while the dates_core twin
returns exactly the date, Ok-wrapped. -/
theorem C1_round_trip_twin_panics (y : ℕ) (mo : Hebrew.HebrewMonth) (dd : ℕ)
    (hy : 1 ≤ y) (hval : Hebrew.ValidHebrewDate y mo dd) :
    Hebrew.try_from_absolute_core (Hebrew.hebrew_to_absolute y mo dd) = none ∧
      Hebrew.try_from_absolute (Hebrew.hebrew_to_absolute y mo dd) =
        some (Except.ok ⟨y, mo, dd⟩) :=
  ⟨core_none y mo dd hy hval.1, Hebrew.tfa_formula y mo dd hy hval⟩

/-- Witness for C1 at the date of the source's own doctest, 5769
Cheshvan 15 (absolute day 733359). -/
theorem C1_witness :
    Hebrew.try_from_absolute_core
        (Hebrew.hebrew_to_absolute 5769 Hebrew.HebrewMonth.Cheshvan 15) = none ∧
      Hebrew.try_from_absolute
          (Hebrew.hebrew_to_absolute 5769 Hebrew.HebrewMonth.Cheshvan 15) =
        some (Except.ok ⟨5769, Hebrew.HebrewMonth.Cheshvan, 15⟩) :=
  C1_round_trip_twin_panics 5769 Hebrew.HebrewMonth.Cheshvan 15 (by norm_num) (by decide)

/-- Claim C2 (amended): below EPOCH try_from_absolute returns the
BeforeEpoch error; at EPOCH exactly the year search stops at 0 and the
u32 year -= 1 underflow panics (none); from EPOCH + 1 on it succeeds
with an Ok date. -/
theorem C2_epoch_behavior (a : ℤ) :
    (a < Hebrew.EPOCH →
      Hebrew.try_from_absolute a =
        some (Except.error Hebrew.HebrewDateErrors.BeforeEpochError)) ∧
    (a = Hebrew.EPOCH → Hebrew.try_from_absolute a = none) ∧
    (Hebrew.EPOCH + 1 ≤ a →
      ∃ d, Hebrew.try_from_absolute a = some (Except.ok d)) := by
  refine ⟨?_, ?_, ?_⟩
  · intro h
    unfold Hebrew.try_from_absolute
    rw [if_pos h]
  · intro h
    subst h
    decide
  · intro h
    obtain ⟨Y, mo, dd, hY, hval, ha, htfa⟩ := Hebrew.tfa_spec_exists a h
    exact ⟨⟨Y, mo, dd⟩, htfa⟩

/-- Witness for C2 at the three boundary inputs EPOCH - 1, EPOCH and
EPOCH + 1. -/
theorem C2_witness :
    Hebrew.try_from_absolute (Hebrew.EPOCH - 1) =
        some (Except.error Hebrew.HebrewDateErrors.BeforeEpochError) ∧
      Hebrew.try_from_absolute Hebrew.EPOCH = none ∧
      ∃ d, Hebrew.try_from_absolute (Hebrew.EPOCH + 1) = some (Except.ok d) :=
  ⟨(C2_epoch_behavior (Hebrew.EPOCH - 1)).1 (by omega),
   (C2_epoch_behavior Hebrew.EPOCH).2.1 rfl,
   (C2_epoch_behavior (Hebrew.EPOCH + 1)).2.2 (by omega)⟩

/-- Counterexample to C2 as stated: at the epoch day itself the
conversion does not succeed — the year loop never runs and year -= 1
underflows (a panic, modelled none). -/
theorem C2_counterexample : Hebrew.try_from_absolute Hebrew.EPOCH = none := by decide

/-- Claim C3: the div_euclid-based hdate_core absolute_to_gregorian
inverts to_fixed on every valid Gregorian date, negative years
included; the truncating-division year recovery of the hdate twin
disagrees with the floor-division one at absolute day -36536 (the
Gregorian -100-12-20 of that file's own test), where truncation yields
year -99 instead of -100. -/
theorem C3_gregorian_round_trip (y : ℤ) (m d : ℕ)
    (hv : Gregorian.ValidGregorianDate y m d) :
    Gregorian.absolute_to_gregorian (Gregorian.to_fixed y m d) = some (y, m, d) ∧
      Gregorian.year_from_fixed_trunc (-36536) = -99 ∧
      Gregorian.year_from_fixed (-36536) = -100 :=
  ⟨Gregorian.a2g_round y m d hv, by decide, by decide⟩

/-- Witness for C3 at the Gregorian date 2005-04-02. -/
theorem C3_witness :
    Gregorian.absolute_to_gregorian (Gregorian.to_fixed 2005 4 2) = some (2005, 4, 2) ∧
      Gregorian.year_from_fixed_trunc (-36536) = -99 ∧
      Gregorian.year_from_fixed (-36536) = -100 :=
  C3_gregorian_round_trip 2005 4 2 (by decide)

/-- Claim C4: the Hebrew date 5765 AdarII 22 and the Gregorian date
2005-04-02 both map to absolute day 732038. -/
theorem C4_anchor :
    Hebrew.hebrew_to_absolute 5765 Hebrew.HebrewMonth.AdarII 22 = 732038 ∧
      Gregorian.to_fixed 2005 4 2 = 732038 := by decide

/-- Claim C5 (amended): for consecutive absolute days n and n + 1 with
n at or after EPOCH + 1 (the first day try_from_absolute succeeds on),
the two Hebrew dates are chronologically adjacent: same month with day
incremented, or day 1 of the calendar-successor month of the same year,
or 1 Tishrei of the next year. -/
theorem C5_adjacent (n : ℤ) (hn : Hebrew.EPOCH + 1 ≤ n) :
    ∃ Y mo dd, Hebrew.try_from_absolute n = some (Except.ok ⟨Y, mo, dd⟩) ∧
      (Hebrew.try_from_absolute (n + 1) = some (Except.ok ⟨Y, mo, dd + 1⟩) ∨
       (∃ mo2, Hebrew.nextMonthInYear Y mo = some mo2 ∧
         Hebrew.try_from_absolute (n + 1) = some (Except.ok ⟨Y, mo2, 1⟩)) ∨
       (mo = Hebrew.HebrewMonth.Elul ∧
         Hebrew.try_from_absolute (n + 1) =
           some (Except.ok ⟨Y + 1, Hebrew.HebrewMonth.Tishrei, 1⟩))) := by
  obtain ⟨Y, mo, dd, hY, hval, ha, htfa⟩ := Hebrew.tfa_spec_exists n hn
  refine ⟨Y, mo, dd, htfa, ?_⟩
  rcases Hebrew.succ_date Y mo dd hY hval with
    ⟨hlt, hv2, he⟩ | ⟨hdd, mo2, hnext, hv2, he⟩ | ⟨hdd, hElul, hv2, he⟩
  · left
    rw [show n + 1 = Hebrew.hebrew_to_absolute Y mo (dd + 1) by omega]
    exact Hebrew.tfa_formula Y mo (dd + 1) hY hv2
  · right; left
    refine ⟨mo2, hnext, ?_⟩
    rw [show n + 1 = Hebrew.hebrew_to_absolute Y mo2 1 by omega]
    exact Hebrew.tfa_formula Y mo2 1 hY hv2
  · right; right
    refine ⟨hElul, ?_⟩
    rw [show n + 1 = Hebrew.hebrew_to_absolute (Y + 1) Hebrew.HebrewMonth.Tishrei 1 by omega]
    exact Hebrew.tfa_formula (Y + 1) Hebrew.HebrewMonth.Tishrei 1 (by omega) hv2

/-- Witness for C5 at n = 732038 (5765 AdarII 22). -/
theorem C5_witness :
    ∃ Y mo dd, Hebrew.try_from_absolute 732038 = some (Except.ok ⟨Y, mo, dd⟩) ∧
      (Hebrew.try_from_absolute (732038 + 1) = some (Except.ok ⟨Y, mo, dd + 1⟩) ∨
       (∃ mo2, Hebrew.nextMonthInYear Y mo = some mo2 ∧
         Hebrew.try_from_absolute (732038 + 1) = some (Except.ok ⟨Y, mo2, 1⟩)) ∨
       (mo = Hebrew.HebrewMonth.Elul ∧
         Hebrew.try_from_absolute (732038 + 1) =
           some (Except.ok ⟨Y + 1, Hebrew.HebrewMonth.Tishrei, 1⟩))) :=
  C5_adjacent 732038 (by decide)

/-- Counterexample to C5 as stated (both days merely at or after the
epoch): at the pair (EPOCH, EPOCH + 1) the first conversion yields no
date at all — it panics — while the second succeeds, so no adjacency
of returned dates exists at that pair. -/
theorem C5_counterexample :
    Hebrew.EPOCH ≤ Hebrew.EPOCH ∧
      Hebrew.try_from_absolute Hebrew.EPOCH = none ∧
      Hebrew.try_from_absolute (Hebrew.EPOCH + 1) =
        some (Except.ok ⟨1, Hebrew.HebrewMonth.Tishrei, 1⟩) :=
  ⟨le_refl _, by decide, by decide⟩

/-- Claim C6: the leap rule is (1 + 7 y) mod 19 < 7, and any 19
consecutive years from y on contain exactly 7 leap years. -/
theorem C6_leap_rule (y : ℕ) (hy : 1 ≤ y) :
    (Hebrew.is_leap_year y = true ↔ (1 + 7 * y) % 19 < 7) ∧
      ((List.range 19).filter (fun i => Hebrew.is_leap_year (y + i))).length = 7 := by
  constructor
  · simp only [Hebrew.is_leap_year, decide_eq_true_eq, Nat.mul_comm y 7]
  · exact Hebrew.leap_density y

/-- Witness for C6 at year 5765. -/
theorem C6_witness :
    (Hebrew.is_leap_year 5765 = true ↔ (1 + 7 * 5765) % 19 < 7) ∧
      ((List.range 19).filter (fun i => Hebrew.is_leap_year (5765 + i))).length = 7 :=
  C6_leap_rule 5765 (by norm_num)

/-- Claim C7: the year length is the difference of consecutive
elapsed_days and is one of the six legal values 353, 354, 355, 383,
384, 385, so its residue mod 10 lies in {3, 4, 5, 7}. -/
theorem C7_year_lengths (y : ℕ) (hy : 1 ≤ y) :
    Hebrew.days_in_year y = Hebrew.elapsed_days (y + 1) - Hebrew.elapsed_days y ∧
      (Hebrew.days_in_year y = 353 ∨ Hebrew.days_in_year y = 354 ∨
        Hebrew.days_in_year y = 355 ∨ Hebrew.days_in_year y = 383 ∨
        Hebrew.days_in_year y = 384 ∨ Hebrew.days_in_year y = 385) ∧
      (Hebrew.days_in_year y % 10 = 3 ∨ Hebrew.days_in_year y % 10 = 4 ∨
        Hebrew.days_in_year y % 10 = 5 ∨ Hebrew.days_in_year y % 10 = 7) := by
  have h := Hebrew.year_length_legal y hy
  exact ⟨rfl, h, by omega⟩

/-- Witness for C7 at year 1. -/
theorem C7_witness :
    Hebrew.days_in_year 1 = Hebrew.elapsed_days (1 + 1) - Hebrew.elapsed_days 1 ∧
      (Hebrew.days_in_year 1 = 353 ∨ Hebrew.days_in_year 1 = 354 ∨
        Hebrew.days_in_year 1 = 355 ∨ Hebrew.days_in_year 1 = 383 ∨
        Hebrew.days_in_year 1 = 384 ∨ Hebrew.days_in_year 1 = 385) ∧
      (Hebrew.days_in_year 1 % 10 = 3 ∨ Hebrew.days_in_year 1 % 10 = 4 ∨
        Hebrew.days_in_year 1 % 10 = 5 ∨ Hebrew.days_in_year 1 % 10 = 7) :=
  C7_year_lengths 1 le_rfl

/-- Claim C8: behavior of the dates_core try_from_ym — errors on 0 and
on months above 14, normalizes 14 to Nisan exactly in leap years and
errors otherwise, maps 13 to Nisan in common years and to AdarII in
leap years, and maps 1..12 directly; the hdate_core twin instead panics
on these error paths. -/
theorem C8_try_from_ym (m y : ℕ) :
    (m = 0 ∨ 14 < m →
      Hebrew.try_from_ym m y = Except.error Hebrew.HebrewDateErrors.BadMonthArgument) ∧
    (m = 14 → Hebrew.try_from_ym m y =
      (if Hebrew.is_leap_year y then Except.ok Hebrew.HebrewMonth.Nisan
       else Except.error Hebrew.HebrewDateErrors.BadMonthArgument)) ∧
    (m = 13 → Hebrew.is_leap_year y = false →
      Hebrew.try_from_ym m y = Except.ok Hebrew.HebrewMonth.Nisan) ∧
    (m = 13 → Hebrew.is_leap_year y = true →
      Hebrew.try_from_ym m y = Except.ok Hebrew.HebrewMonth.AdarII) ∧
    (1 ≤ m → m ≤ 12 →
      Hebrew.try_from_ym m y =
        Except.ok ((Hebrew.monthOfNum m).getD Hebrew.HebrewMonth.Nisan)) :=
  Hebrew.try_from_ym_cases m y

/-- Witness for C8: month 14 in the common year 5764 is the BadMonth
error. -/
theorem C8_witness :
    Hebrew.try_from_ym 14 5764 = Except.error Hebrew.HebrewDateErrors.BadMonthArgument := by
  have h := (C8_try_from_ym 14 5764).2.1 rfl
  rw [h]
  decide

/-- Claim C9 (amended): Molad::new equals the field map moladOf at the
elapsed-month count elapsedMonths(year) + offset, where the offset is
month - 7 wrapped forward by months_in_year(year) when it is
non-positive (Tishrei included, unlike the spec's wrap-if-negative),
and the derived fields satisfy day_of_week < 7, hour < 24, minute < 60
and chalakim < 18; no postponement rule is applied anywhere in the
formula. -/
theorem C9_molad (y : ℕ) (mo : Hebrew.HebrewMonth) :
    Molad.new y mo = moladOf y mo (Hebrew.elapsedMonths y + moladOffset y mo) ∧
      (Molad.new y mo).day_of_week < 7 ∧ (Molad.new y mo).hour < 24 ∧
      (Molad.new y mo).minute < 60 ∧ (Molad.new y mo).parts < 18 := by
  have he : Molad.new y mo = moladOf y mo (Hebrew.elapsedMonths y + moladOffset y mo) := by
    rw [molad_new_eq_moladOf, molad_em_eq]
  obtain ⟨r1, r2, r3, r4⟩ := moladOf_ranges y mo (Hebrew.elapsedMonths y + moladOffset y mo)
  refine ⟨he, ?_, ?_, ?_, ?_⟩ <;> rw [he]
  exacts [r1, r2, r3, r4]

/-- Counterexample to C9 as stated: wrapping only a negative offset
(Molad.perSpecWrapNegative) disagrees with the source at Tishrei, whose
offset is 0. -/
theorem C9_counterexample :
    Molad.new 5769 Hebrew.HebrewMonth.Tishrei ≠
      Molad.perSpecWrapNegative 5769 Hebrew.HebrewMonth.Tishrei := by decide

/-- Claim C10: hebrew_to_absolute applies no day validation; for every
day value d >= 1, in range for the month or not, it returns the
absolute day of day 1 of the month plus d - 1. -/
theorem C10_day_unvalidated (y : ℕ) (mo : Hebrew.HebrewMonth) (d : ℕ) (hd : 1 ≤ d) :
    Hebrew.hebrew_to_absolute y mo d =
      Hebrew.hebrew_to_absolute y mo 1 + ((d - 1 : ℕ) : ℤ) := by
  have h1 : Hebrew.tempAbsolute y mo.toNum d = Hebrew.tempAbsolute y mo.toNum 1 + (d - 1) := by
    unfold Hebrew.tempAbsolute
    split_ifs <;> omega
  unfold Hebrew.hebrew_to_absolute
  omega

/-- Witness for C10 at 5765 AdarII 40, a day past the 29-day length of
AdarII. -/
theorem C10_witness :
    Hebrew.hebrew_to_absolute 5765 Hebrew.HebrewMonth.AdarII 40 =
      Hebrew.hebrew_to_absolute 5765 Hebrew.HebrewMonth.AdarII 1 + ((40 - 1 : ℕ) : ℤ) :=
  C10_day_unvalidated 5765 Hebrew.HebrewMonth.AdarII 40 (by norm_num)
